import Mathlib

/-!
Verification development for the Pricewise product-matching engine
(`services/product_matcher_service.py`, with `services/simple_product_matcher.py`
as a near-identical variant).  Text is modelled as `List Char`, Python floats as
`ℚ`, fallible values as `Option`, and raised exceptions as `Except`.  The
external collaborators (rapidfuzz ratios, the sentence encoder, the TF-IDF
vectorizer) are abstracted as function parameters bundled in `Signals`; every
other function is translated from the Python source.
-/

/-- ASCII lowercasing of one character, the effect of Python `str.lower` on the
inputs considered here. -/
def lowerChar (c : Char) : Char :=
  if 'A' ≤ c && c ≤ 'Z' then Char.ofNat (c.toNat + 32) else c

/-- Lowercase a whole string (Python `s.lower()`). -/
def lowerStr (s : List Char) : List Char :=
  s.map lowerChar

/-- Python regex `\s` / `str.strip` whitespace characters. -/
def isSpaceChar (c : Char) : Bool :=
  c = ' ' || c = '\t' || c = '\n' || c = '\x0d' || c = '\x0b' || c = '\x0c'

/-- Python regex word character (`\w`): letters, digits, underscore. -/
def isWordChar (c : Char) : Bool :=
  ('a' ≤ c && c ≤ 'z') || ('A' ≤ c && c ≤ 'Z') || ('0' ≤ c && c ≤ '9') || c = '_'

/-- ASCII digit test (Python regex `\d` on the relevant inputs). -/
def isDigitChar (c : Char) : Bool :=
  '0' ≤ c && c ≤ '9'

/-- Numeric value of a list of ASCII digits, most significant first. -/
def natOfDigits (ds : List Char) : ℕ :=
  ds.foldl (fun n c => 10 * n + (c.toNat - 48)) 0

/-- Substring containment, Python's `needle in hay` on strings. -/
def containsSub (needle : List Char) : List Char → Bool
  | [] => needle.isEmpty
  | c :: rest => needle.isPrefixOf (c :: rest) || containsSub needle rest

/-- Python `str.strip()`: drop leading and trailing whitespace. -/
def pyStrip (s : List Char) : List Char :=
  ((s.dropWhile isSpaceChar).reverse.dropWhile isSpaceChar).reverse

/-- Helper for `splitWs`, accumulating the current word reversed. -/
def splitWsAux : List Char → List Char → List (List Char)
  | [], acc => if acc.isEmpty then [] else [acc.reverse]
  | c :: rest, acc =>
      if isSpaceChar c then
        if acc.isEmpty then splitWsAux rest [] else acc.reverse :: splitWsAux rest []
      else splitWsAux rest (c :: acc)

/-- Python `str.split()` with no argument: split on whitespace runs, no empty parts. -/
def splitWs (s : List Char) : List (List Char) :=
  splitWsAux s []

/-- First defined entry of a list of optional values. -/
def firstSome {α : Type} : List (Option α) → Option α
  | [] => none
  | some a :: _ => some a
  | none :: rest => firstSome rest

/-- Early-return combinator: the Python idiom `if x: return x` followed by
the rest of the function. -/
def pyOr {α : Type} (o rest : Option α) : Option α :=
  match o with
  | some pk => some pk
  | none => rest

/-- Python `min(l, key=...)` modelled by its comparison: fold keeping the first
element that is minimal for the strict comparison `lt`. -/
def minByLt {α : Type} (lt : α → α → Bool) : List α → Option α
  | [] => none
  | h :: t => some (t.foldl (fun best x => if lt x best then x else best) h)

/-- Insertion step of a stable insertion sort for the boolean relation `le`. -/
def insertLe {α : Type} (le : α → α → Bool) (a : α) : List α → List α
  | [] => [a]
  | b :: t => if le a b then a :: b :: t else b :: insertLe le a t

/-- Stable insertion sort, the model of Python's stable `list.sort`. -/
def sortLe {α : Type} (le : α → α → Bool) : List α → List α
  | [] => []
  | a :: t => insertLe le a (sortLe le t)

/-- Characters kept by `normalize_text`'s character class `[^a-z0-9 &%().,-]`. -/
def keepChar (c : Char) : Bool :=
  ('a' ≤ c && c ≤ 'z') || ('0' ≤ c && c ≤ '9') || c = ' ' || c = '&' || c = '%' ||
    c = '(' || c = ')' || c = '.' || c = ',' || c = '-'

/-- Unicode punctuation replacement done by `normalize_text` before stripping:
en dash and em dash become a hyphen, the right single quote becomes `'`. -/
def mapPunct (c : Char) : Char :=
  if c = '–' then '-' else if c = '—' then '-' else
    if c = '’' then '\x27' else c

/-- Collapse runs of spaces to a single space (`re.sub(r"\s+", " ", s)` after
every whitespace character has already been replaced by a space). -/
def squeezeSpaces : List Char → List Char
  | [] => []
  | [c] => [c]
  | a :: b :: rest =>
      if a = ' ' && b = ' ' then squeezeSpaces (b :: rest)
      else a :: squeezeSpaces (b :: rest)

/-- Model of `normalize_text` (product_matcher_service.py lines 140-152):
lowercase, map unicode punctuation to ASCII, replace every character outside
the kept class by a space, collapse whitespace and strip. -/
def normalize_text (s : List Char) : List Char :=
  if s.isEmpty then [] else
    let s1 := (lowerStr s).map mapPunct
    let s2 := s1.map (fun c => if keepChar c then c else ' ')
    pyStrip (squeezeSpaces s2)

/-- Token of the tiny regular-expression fragment the service uses: a literal
character, `\s*`, `\s+`, an optional character (`&?`), or `\d+`. -/
inductive RTok : Type
  | lit : Char → RTok
  | wsStar : RTok
  | wsPlus : RTok
  | optCh : Char → RTok
  | digitPlus : RTok
deriving DecidableEq

/-- Literal-token sequence spelling out a plain string. -/
def lits (s : List Char) : List RTok :=
  s.map RTok.lit

/-- Matching states: whether the character just before the current position is
a word character (for `\b`), together with the remaining input. -/
abbrev MState : Type := Bool × List Char

/-- All states reachable by letting `\s*` consume zero or more whitespace
characters. -/
def wsTails (lw : Bool) : List Char → List MState
  | [] => [(lw, [])]
  | c :: rest =>
      if isSpaceChar c then (lw, c :: rest) :: wsTails false rest
      else [(lw, c :: rest)]

/-- All states reachable by letting `\d+` consume one or more digits. -/
def digitTails : List Char → List MState
  | [] => []
  | c :: rest =>
      if isDigitChar c then (true, rest) :: digitTails rest else []

/-- All states reachable after matching one token. -/
def stepsTok : RTok → MState → List MState
  | .lit _, (_, []) => []
  | .lit ch, (_, c :: rest) => if c = ch then [(isWordChar ch, rest)] else []
  | .wsStar, (lw, cs) => wsTails lw cs
  | .wsPlus, (_, []) => []
  | .wsPlus, (_, c :: rest) => if isSpaceChar c then wsTails false rest else []
  | .optCh ch, (lw, cs) =>
      (lw, cs) :: (match cs with
        | [] => []
        | c :: rest => if c = ch then [(isWordChar ch, rest)] else [])
  | .digitPlus, (_, cs) => digitTails cs

/-- All states reachable after matching a token sequence. -/
def stepsSeq : List RTok → MState → List MState
  | [], st => [st]
  | t :: ts, st => (stepsTok t st).flatMap (stepsSeq ts)

/-- Word-character status of the next input character (end of input counts as
a non-word character). -/
def headWord : List Char → Bool
  | [] => false
  | c :: _ => isWordChar c

/-- Does some alternative match at the current position, with a word boundary
`\b` on both sides?  This is the one-position test behind `re.search` for the
classifier patterns, which all have the shape `\b( alt | ... )\b`. -/
def altsHit (alts : List (List RTok)) (lw : Bool) (cs : List Char) : Bool :=
  (lw != headWord cs) &&
    alts.any (fun alt => (stepsSeq alt (lw, cs)).any (fun st => st.1 != headWord st.2))

/-- Scan of all start positions, left to right, threading the word-character
status of the previous character. -/
def searchWBFrom (alts : List (List RTok)) : Bool → List Char → Bool
  | lw, [] => altsHit alts lw []
  | lw, c :: rest => altsHit alts lw (c :: rest) || searchWBFrom alts (isWordChar c) rest

/-- Model of `re.search(r"\b(alt|...)\b", s)` returning whether a match exists. -/
def reSearch (alts : List (List RTok)) (cs : List Char) : Bool :=
  searchWBFrom alts false cs

/-- Greedy parse of `\d+(?:\.\d+)?` at the current position, as exact natural
parts (integer part, fraction digits value, fraction length) plus the rest of
the input.  At any position where the full volume pattern can match,
backtracking cannot produce a different number, so the greedy parse is exact. -/
def parseNumber (cs : List Char) : Option ((ℕ × ℕ × ℕ) × List Char) :=
  let ds := cs.takeWhile isDigitChar
  if ds.isEmpty then none else
    let rest := cs.drop ds.length
    match rest with
    | '.' :: after =>
        let fs := after.takeWhile isDigitChar
        if fs.isEmpty then some ((natOfDigits ds, 0, 0), rest)
        else some ((natOfDigits ds, natOfDigits fs, fs.length), after.drop fs.length)
    | _ => some ((natOfDigits ds, 0, 0), rest)

/-- Rational value of the number parts produced by `parseNumber`. -/
def ratOfParts (p : ℕ × ℕ × ℕ) : ℚ :=
  (p.1 : ℚ) + (p.2.1 : ℚ) / (10 : ℚ) ^ p.2.2

/-- One-position test for the volume patterns
`(\d+(?:\.\d+)?)\s*(unit|...)\b` (with `allowWs := false` for the no-space
gallon fallback): the parsed numeric group if the pattern matches here. -/
def volHit (allowWs : Bool) (alts : List (List RTok)) (cs : List Char) : Option (ℕ × ℕ × ℕ) :=
  match parseNumber cs with
  | none => none
  | some (v, rest) =>
      let starts := if allowWs then wsTails true rest else [(true, rest)]
      if starts.any (fun st =>
           alts.any (fun alt => (stepsSeq alt st).any (fun st2 => st2.1 != headWord st2.2)))
      then some v else none

/-- Leftmost `re.search` for one volume pattern: scan start positions left to
right and return the first matching position's numeric group. -/
def volSearch (allowWs : Bool) (alts : List (List RTok)) : List Char → Option (ℕ × ℕ × ℕ)
  | [] => none
  | c :: rest =>
      match volHit allowWs alts (c :: rest) with
      | some v => some v
      | none => volSearch allowWs alts rest

/-- Unit alternatives `gal|gallon|gallons`. -/
def galAlts : List (List RTok) :=
  [lits (("gal").toList), lits (("gallon").toList), lits (("gallons").toList)]

/-- Unit alternatives `fl\s*oz|fluid\s*oz|oz`. -/
def ozAlts : List (List RTok) :=
  [lits (("fl").toList) ++ [RTok.wsStar] ++ lits (("oz").toList),
   lits (("fluid").toList) ++ [RTok.wsStar] ++ lits (("oz").toList),
   lits (("oz").toList)]

/-- Unit alternatives `l|litre|liter|liters`. -/
def literAlts : List (List RTok) :=
  [lits (("l").toList), lits (("litre").toList), lits (("liter").toList),
   lits (("liters").toList)]

/-- Unit alternatives `ml|milliliter|millilitre|milliliters`. -/
def mlAlts : List (List RTok) :=
  [lits (("ml").toList), lits (("milliliter").toList), lits (("millilitre").toList),
   lits (("milliliters").toList)]

/-- Unit alternatives `qt|quart|quarts`. -/
def qtAlts : List (List RTok) :=
  [lits (("qt").toList), lits (("quart").toList), lits (("quarts").toList)]

/-- Unit alternatives `pt|pint|pints`. -/
def ptAlts : List (List RTok) :=
  [lits (("pt").toList), lits (("pint").toList), lits (("pints").toList)]

/-- Liters per gallon used by the source, `3.78541`. -/
def galFactor : ℚ := 378541 / 100000

/-- Liters per fluid ounce used by the source, `0.0295735`. -/
def ozFactor : ℚ := 295735 / 10000000

/-- Liters per quart used by the source, `0.946353`. -/
def qtFactor : ℚ := 946353 / 1000000

/-- Liters per pint used by the source, `0.473176`. -/
def ptFactor : ℚ := 473176 / 1000000

/-- Model of `parse_volume_to_liters` (product_matcher_service.py lines
154-200, identical in simple_product_matcher.py lines 86-123): lowercase the
title, then try the unit patterns in the source's order, returning the first
match converted to liters. -/
def parse_volume_to_liters (title : List Char) : Option ℚ :=
  let t := lowerStr title
  pyOr ((volSearch true galAlts t).map (fun v => ratOfParts v * galFactor))
  (pyOr ((volSearch true ozAlts t).map (fun v => ratOfParts v * ozFactor))
  (pyOr ((volSearch true literAlts t).map (fun v => ratOfParts v))
  (pyOr ((volSearch true mlAlts t).map (fun v => ratOfParts v / 1000))
  (pyOr ((volSearch true qtAlts t).map (fun v => ratOfParts v * qtFactor))
  (pyOr ((volSearch true ptAlts t).map (fun v => ratOfParts v * ptFactor))
  ((volSearch false galAlts t).map (fun v => ratOfParts v * galFactor)))))))

/-- Model of `parse_volume_to_liters_from_quantity_string`: parse an optional
standalone quantity string through the identical rule set. -/
def parse_volume_from_quantity_string (quantity_text : Option (List Char)) : Option ℚ :=
  match quantity_text with
  | none => none
  | some s => if s.isEmpty then none else parse_volume_to_liters s

/-- Product record from a HasData result: the fields the matching engine
interprets (`title`, `extractedPrice`, `source`); other payload fields are
passed through unread and are not modelled. -/
structure Product where
  title : List Char
  extractedPrice : Option ℚ
  source : List Char
deriving DecidableEq

/-- Price of a product that is known to have one (`x.get("extractedPrice")`
after the `isinstance` filter). -/
def priceD (p : Product) : ℚ :=
  p.extractedPrice.getD 0

/-- Model of `pick_lowest_price` (lines 356-360): keep products whose
`extractedPrice` is a number, return the first one of minimal price, or `None`
when no product is priced. -/
def pick_lowest_price (products : List Product) : Option Product :=
  minByLt (fun a b => decide (priceD a < priceD b))
    (products.filter (fun p => p.extractedPrice.isSome))

/-- Python truthiness `bool(x)` for the optional strings `item` and `brand`:
false for `None` and for the empty string. -/
def hasTok : Option (List Char) → Bool
  | none => false
  | some s => !s.isEmpty

/-- Model of `title_contains_token` (lines 341-344): false for a missing or
empty token, else case-insensitive substring presence in the lowered title. -/
def title_contains_token (title_lower : List Char) (token : Option (List Char)) : Bool :=
  match token with
  | none => false
  | some t => if t.isEmpty then false else containsSub (lowerStr t) title_lower

/-- Model of `title_matches_quantity_liters` (lines 346-354): the title's
parsed liters must exist and differ from the desired liters by at most
`tolerance * desired`. -/
def title_matches_quantity_liters (title : List Char) (desired : Option ℚ)
    (tolerance : ℚ) : Bool :=
  match desired with
  | none => false
  | some d =>
      match parse_volume_to_liters title with
      | none => false
      | some l => decide (|l - d| ≤ tolerance * d)

/-- Token condition of the priority selector (`title_contains_token` applied
to one product's lowered title). -/
def condTok (token : Option (List Char)) (p : Product) : Bool :=
  title_contains_token (lowerStr p.title) token

/-- Quantity condition of the priority selector, at the default 15%
tolerance. -/
def condQty (quantity_liters : Option ℚ) (p : Product) : Bool :=
  title_matches_quantity_liters p.title quantity_liters (15 / 100)

/-- Tier-1 condition of the priority selector: the title matches item, brand
and quantity simultaneously. -/
def matchesAllThree (item brand : List Char) (qty : ℚ) (p : Product) : Bool :=
  condTok (some item) p && condTok (some brand) p && condQty (some qty) p

/-- Model of `select_by_priority_conditions` (lines 362-444): the four
presence cases with their cascades of filters, each tier reduced by
`pick_lowest_price`, falling through to the next tier when that pick is
`None`, with cheapest-overall as final fallback. -/
def select_by_priority_conditions (store_products : List Product)
    (item brand : Option (List Char)) (quantity_liters : Option ℚ) : Option Product :=
  let has_item := hasTok item
  let has_brand := hasTok brand
  let has_qty := quantity_liters.isSome
  if has_item && has_brand && has_qty then
    pyOr (pick_lowest_price (store_products.filter (fun p =>
        condTok item p && condTok brand p && condQty quantity_liters p)))
    (pyOr (pick_lowest_price (store_products.filter (fun p =>
        (condTok item p || condTok brand p) && condQty quantity_liters p)))
    (pyOr (pick_lowest_price (store_products.filter (fun p =>
        condTok item p && (condTok brand p || condQty quantity_liters p))))
    (pyOr (pick_lowest_price (store_products.filter (fun p =>
        condTok item p || condTok brand p || condQty quantity_liters p)))
    (pick_lowest_price store_products))))
  else if has_item && has_brand && !has_qty then
    pyOr (pick_lowest_price (store_products.filter (fun p =>
        condTok item p && condTok brand p)))
    (pyOr (pick_lowest_price (store_products.filter (fun p =>
        condTok item p || condTok brand p)))
    (pick_lowest_price store_products))
  else if has_item && has_qty && !has_brand then
    pyOr (pick_lowest_price (store_products.filter (fun p =>
        condTok item p && condQty quantity_liters p)))
    (pyOr (pick_lowest_price (store_products.filter (fun p =>
        condTok item p || condQty quantity_liters p)))
    (pick_lowest_price store_products))
  else if has_item || has_brand || has_qty then
    pyOr (pick_lowest_price (store_products.filter (fun p =>
        (has_item && condTok item p) || (has_brand && condTok brand p) ||
          (has_qty && condQty quantity_liters p))))
    (pick_lowest_price store_products)
  else none

/-- Spec-side reading of the highest-priority cascade, written as a first-hit
scan over the four tiers and the cheapest-overall fallback. -/
def priority_cascade_all_three (store_products : List Product)
    (item brand : List Char) (qty : ℚ) : Option Product :=
  firstSome
    [pick_lowest_price (store_products.filter (fun p =>
        condTok (some item) p && condTok (some brand) p && condQty (some qty) p)),
     pick_lowest_price (store_products.filter (fun p =>
        (condTok (some item) p || condTok (some brand) p) && condQty (some qty) p)),
     pick_lowest_price (store_products.filter (fun p =>
        condTok (some item) p && (condTok (some brand) p || condQty (some qty) p))),
     pick_lowest_price (store_products.filter (fun p =>
        condTok (some item) p || condTok (some brand) p || condQty (some qty) p)),
     pick_lowest_price store_products]

/-- Shorthand for a `\s+` token. -/
def wsp : List RTok := [RTok.wsPlus]

/-- Shorthand for a `\s*` token. -/
def wss : List RTok := [RTok.wsStar]

/-- Brand-indicator regex alternatives of `is_general_query` (first group). -/
def brandIndPat1 : List (List RTok) :=
  [lits (("organic").toList), lits (("premium").toList), lits (("luxury").toList),
   lits (("premium").toList),
   lits (("name").toList) ++ wsp ++ lits (("brand").toList),
   lits (("store").toList) ++ wsp ++ lits (("brand").toList),
   lits (("generic").toList)]

/-- Brand-indicator regex alternatives (second group, detergent brands). -/
def brandIndPat2 : List (List RTok) :=
  [lits (("ariel").toList), lits (("tide").toList), lits (("gain").toList),
   lits (("downy").toList), lits (("persil").toList),
   lits (("arm").toList) ++ wss ++ [RTok.optCh '&'] ++ wss ++ lits (("hammer").toList),
   lits (("all").toList), lits (("cheer").toList)]

/-- Brand-indicator regex alternatives (third group, store brands). -/
def brandIndPat3 : List (List RTok) :=
  [lits (("great").toList) ++ wsp ++ lits (("value").toList),
   lits (("kirkland").toList),
   lits (("members").toList) ++ wsp ++ lits (("mark").toList),
   lits (("store").toList) ++ wsp ++ lits (("brand").toList)]

/-- Quantity-indicator alternatives: `\d+\s*(gallon|...|fl\s*oz)`. -/
def qtyIndPat1 : List (List RTok) :=
  [[RTok.digitPlus] ++ wss ++ lits (("gallon").toList),
   [RTok.digitPlus] ++ wss ++ lits (("gal").toList),
   [RTok.digitPlus] ++ wss ++ lits (("liter").toList),
   [RTok.digitPlus] ++ wss ++ lits (("l").toList),
   [RTok.digitPlus] ++ wss ++ lits (("oz").toList),
   [RTok.digitPlus] ++ wss ++ lits (("ounce").toList),
   [RTok.digitPlus] ++ wss ++ lits (("pound").toList),
   [RTok.digitPlus] ++ wss ++ lits (("lb").toList),
   [RTok.digitPlus] ++ wss ++ lits (("kg").toList),
   [RTok.digitPlus] ++ wss ++ lits (("gram").toList),
   [RTok.digitPlus] ++ wss ++ lits (("g").toList),
   [RTok.digitPlus] ++ wss ++ lits (("ml").toList),
   [RTok.digitPlus] ++ wss ++ lits (("fl").toList) ++ wss ++ lits (("oz").toList)]

/-- Quantity-indicator alternatives (size words). -/
def qtyIndPat2 : List (List RTok) :=
  [lits (("half").toList), lits (("quarter").toList), lits (("double").toList),
   lits (("triple").toList), lits (("single").toList),
   lits (("family").toList) ++ wsp ++ lits (("size").toList),
   lits (("bulk").toList), lits (("jumbo").toList), lits (("mini").toList)]

/-- Quantity-indicator alternatives: `\d+\s*(pack|count|ct|piece|pc)`. -/
def qtyIndPat3 : List (List RTok) :=
  [[RTok.digitPlus] ++ wss ++ lits (("pack").toList),
   [RTok.digitPlus] ++ wss ++ lits (("count").toList),
   [RTok.digitPlus] ++ wss ++ lits (("ct").toList),
   [RTok.digitPlus] ++ wss ++ lits (("piece").toList),
   [RTok.digitPlus] ++ wss ++ lits (("pc").toList)]

/-- Quality-indicator alternatives (milk variants). -/
def qualIndPat1 : List (List RTok) :=
  [lits (("whole").toList), lits (("2%").toList), lits (("1%").toList),
   lits (("skim").toList),
   lits (("low").toList) ++ wsp ++ lits (("fat").toList),
   lits (("non").toList) ++ wsp ++ lits (("fat").toList),
   lits (("fat").toList) ++ wsp ++ lits (("free").toList),
   lits (("lactose").toList) ++ wsp ++ lits (("free").toList)]

/-- Quality-indicator alternatives (grade words). -/
def qualIndPat2 : List (List RTok) :=
  [lits (("organic").toList), lits (("natural").toList), lits (("premium").toList),
   lits (("ultra").toList), lits (("concentrated").toList),
   lits (("heavy").toList) ++ wsp ++ lits (("duty").toList)]

/-- Quality-indicator alternatives (style words). -/
def qualIndPat3 : List (List RTok) :=
  [lits (("original").toList), lits (("classic").toList), lits (("traditional").toList),
   lits (("new").toList), lits (("improved").toList), lits (("advanced").toList)]

/-- Variant-indicator alternatives (forms). -/
def varIndPat1 : List (List RTok) :=
  [lits (("powder").toList), lits (("liquid").toList), lits (("gel").toList),
   lits (("pods").toList), lits (("capsules").toList), lits (("tablets").toList),
   lits (("bars").toList)]

/-- Variant-indicator alternatives (scents). -/
def varIndPat2 : List (List RTok) :=
  [lits (("unscented").toList),
   lits (("fragrance").toList) ++ wsp ++ lits (("free").toList),
   lits (("scented").toList), lits (("fresh").toList), lits (("clean").toList)]

/-- Variant-indicator alternatives (care claims). -/
def varIndPat3 : List (List RTok) :=
  [lits (("color").toList) ++ wsp ++ lits (("safe").toList),
   lits (("stain").toList) ++ wsp ++ lits (("removal").toList),
   lits (("whitening").toList), lits (("brightening").toList)]

/-- The twelve specific-indicator regexes of `is_general_query`, in source
order: brand, quantity, quality and variant groups, three patterns each. -/
def specificPatterns : List (List (List RTok)) :=
  [brandIndPat1, brandIndPat2, brandIndPat3,
   qtyIndPat1, qtyIndPat2, qtyIndPat3,
   qualIndPat1, qualIndPat2, qualIndPat3,
   varIndPat1, varIndPat2, varIndPat3]

/-- Filler words excluded from the meaningful-word count of rule 4. -/
def stopWords : List (List Char) :=
  [("the").toList, ("and").toList, ("or").toList, ("for").toList,
   ("with").toList, ("in").toList, ("on").toList, ("at").toList]

/-- Flattened fixed basic-category vocabulary of rule 5 (dairy, grains,
proteins, beverages, cleaning, snacks, fruits, vegetables). -/
def basicCategoryTerms : List (List Char) :=
  [("milk").toList, ("cheese").toList, ("butter").toList, ("yogurt").toList,
   ("cream").toList,
   ("bread").toList, ("cereal").toList, ("rice").toList, ("pasta").toList,
   ("flour").toList,
   ("chicken").toList, ("beef").toList, ("fish").toList, ("eggs").toList,
   ("meat").toList,
   ("water").toList, ("juice").toList, ("soda").toList, ("coffee").toList,
   ("tea").toList,
   ("detergent").toList, ("soap").toList, ("shampoo").toList, ("toothpaste").toList,
   ("chips").toList, ("cookies").toList, ("crackers").toList, ("nuts").toList,
   ("apples").toList, ("bananas").toList, ("oranges").toList, ("fruits").toList,
   ("carrots").toList, ("lettuce").toList, ("tomatoes").toList, ("vegetables").toList]

/-- Descriptive-adjective list of rule 7. -/
def descriptiveWords : List (List Char) :=
  [("organic").toList, ("premium").toList, ("fresh").toList, ("natural").toList,
   ("original").toList, ("ultra").toList, ("concentrated").toList, ("heavy").toList,
   ("light").toList, ("free").toList, ("safe").toList]

/-- Meaningful-word test of rule 4: length over two and not a stop word. -/
def isMeaningfulWord (w : List Char) : Bool :=
  2 < w.length && !stopWords.contains w

/-- Model of `is_general_query` (lines 553-666): the eight rules in source
order, the first matching rule deciding. -/
def is_general_query (query : List Char) : Bool :=
  let query_lower := pyStrip (lowerStr query)
  let query_words := splitWs query_lower
  if query_words.length < 1 then true
  else if specificPatterns.any (fun p => reSearch p query_lower) then false
  else if query_words.length = 1 then true
  else if (query_words.filter isMeaningfulWord).length ≤ 2 then true
  else if basicCategoryTerms.any (fun t => containsSub t query_lower) &&
          query_words.length ≤ 3 then true
  else if query_lower.any isDigitChar then false
  else if query_words.any (fun w => descriptiveWords.contains w) then false
  else decide (query_words.length ≤ 3)

/-- Category-synonym table of `find_cheapest_relevant_product` (Strategy 3).
The `cooking oil` key contains a space, so it can never equal a single query
word; it is kept to mirror the source. -/
def categorySynonyms : List (List Char × List (List Char)) :=
  [(("detergent").toList,
    [("laundry").toList, ("washing").toList, ("cleaning").toList, ("soap").toList]),
   (("milk").toList, [("dairy").toList, ("cream").toList, ("lactose").toList]),
   (("bread").toList, [("loaf").toList, ("baked").toList, ("grain").toList]),
   (("chicken").toList, [("poultry").toList, ("meat").toList, ("protein").toList]),
   (("cheese").toList, [("dairy").toList, ("dairy product").toList]),
   (("eggs").toList, [("poultry").toList, ("protein").toList, ("shell").toList]),
   (("cooking oil").toList,
    [("oil").toList, ("vegetable oil").toList, ("canola").toList, ("olive").toList,
     ("sunflower").toList, ("avocado").toList, ("grapeseed").toList]),
   (("oil").toList,
    [("cooking").toList, ("vegetable").toList, ("canola").toList, ("olive").toList,
     ("sunflower").toList, ("avocado").toList, ("grapeseed").toList, ("algae").toList])]

/-- Brand-indicator substrings of Strategy 4. -/
def brandIndicators : List (List Char) :=
  [("ariel").toList, ("tide").toList, ("gain").toList, ("downy").toList,
   ("persil").toList, ("arm & hammer").toList, ("all").toList, ("cheer").toList]

/-- Size-indicator substrings of Strategy 5. -/
def sizeIndicators : List (List Char) :=
  [("gallon").toList, ("gal").toList, ("liter").toList, ("oz").toList,
   ("pound").toList, ("lb").toList, ("kg").toList, ("gram").toList]

/-- Synonym lookup (`query_word in category_synonyms` on the dict). -/
def lookupSynonyms (w : List Char) : Option (List (List Char)) :=
  match categorySynonyms.find? (fun e => e.1 == w) with
  | none => none
  | some e => some e.2

/-- Relevance score of one product for one general query, exactly the five
strategies of `find_cheapest_relevant_product` (lines 682-739).
`query_words` is the deduplicated word set of the lowered stripped query. -/
def relevance_score (query_lower : List Char) (query_words : List (List Char))
    (p : Product) : ℤ :=
  let title := lowerStr p.title
  let title_words := splitWs title
  let s1 : ℤ := 5 * ((title_words.dedup.filter (fun w => query_words.contains w)).length : ℤ)
  let s2 : ℤ := 5 * (((query_words.filter (fun w => 2 < w.length)).map (fun qw =>
      (title_words.filter (fun tw => containsSub qw tw || containsSub tw qw)).length)).sum : ℤ)
  let s3 : ℤ := 3 * ((query_words.map (fun qw =>
      match lookupSynonyms qw with
      | none => 0
      | some syns => (syns.filter (fun syn => containsSub syn title)).length)).sum : ℤ)
  let s4 : ℤ :=
    if brandIndicators.any (fun b => containsSub b title) &&
       !brandIndicators.any (fun b => containsSub b query_lower) then -2 else 0
  let s5 : ℤ :=
    if !sizeIndicators.any (fun z => containsSub z query_lower) &&
       !sizeIndicators.any (fun z => containsSub z title) then 1 else 0
  s1 + s2 + s3 + s4 + s5

/-- Relevance of a product for a query, with the query preprocessing of
`find_cheapest_relevant_product` applied. -/
def relevanceOf (query : List Char) (p : Product) : ℤ :=
  relevance_score (pyStrip (lowerStr query)) ((splitWs (pyStrip (lowerStr query))).dedup) p

/-- Sort key comparison of the general-query path:
`key=lambda x: (float(x.get("extractedPrice", 999)), -relevance)`. -/
def cheapLe (a b : Product × ℤ) : Bool :=
  decide (a.1.extractedPrice.getD 999 < b.1.extractedPrice.getD 999 ∨
    (a.1.extractedPrice.getD 999 = b.1.extractedPrice.getD 999 ∧ b.2 ≤ a.2))

/-- Model of `find_cheapest_relevant_product` (lines 668-757): drop products
with relevance not above zero, stably sort the survivors by ascending price
(999 for a missing price) with descending relevance as tie key, and return
the first survivor, or `None` when no product survives. -/
def find_cheapest_relevant_product (query : List Char) (products : List Product) :
    Option Product :=
  let query_lower := pyStrip (lowerStr query)
  let query_words := (splitWs query_lower).dedup
  let relevant := products.filterMap (fun p =>
    let s := relevance_score query_lower query_words p
    if 0 < s then some (p, s) else none)
  match sortLe cheapLe relevant with
  | [] => none
  | best :: _ => some best.1

/-- Scoring weights dictionary: each key optional, read back through the
defaults of `compute_final_score` (`token_set` 0.50, `embed` 0.30, `partial`
0.15, `brand` 0.05). -/
structure Weights where
  w_token_set : Option ℚ
  w_embed : Option ℚ
  w_part : Option ℚ
  w_brand : Option ℚ
deriving DecidableEq

/-- Effective `token_set` weight (`weights.get("token_set", 0.50)`). -/
def wTok (w : Weights) : ℚ := w.w_token_set.getD (50 / 100)

/-- Effective `embed` weight (`weights.get("embed", 0.30)`). -/
def wEmb (w : Weights) : ℚ := w.w_embed.getD (30 / 100)

/-- Effective `partial` weight (`weights.get("partial", 0.15)`). -/
def wPart (w : Weights) : ℚ := w.w_part.getD (15 / 100)

/-- Effective `brand` weight (`weights.get("brand", 0.05)`). -/
def wBrand (w : Weights) : ℚ := w.w_brand.getD (5 / 100)

/-- The default weight dictionary built when `select_best_product` receives
`weights=None`. -/
def default_weights : Weights :=
  { w_token_set := some (50 / 100), w_embed := some (30 / 100),
    w_part := some (15 / 100), w_brand := some (5 / 100) }

/-- Feature record built by `compute_features_for_candidate`.  Signal fields
are `Option ℚ`: `none` stands for a missing or NaN float, both of which
`normalize_component` maps to the default. -/
structure Feat where
  candidate : Product
  title_norm : List Char
  token_set : Option ℚ
  part : Option ℚ
  embed : Option ℚ
  price : Option ℚ
  liters : Option ℚ
  price_per_liter : Option ℚ
  brand_match : Option ℚ
  score : ℚ
deriving DecidableEq

/-- Model of `compute_price_per_liter` (lines 446-450): `None` when liters is
missing or zero. -/
def compute_price_per_liter (price : ℚ) (liters : Option ℚ) : Option ℚ :=
  match liters with
  | none => none
  | some l => if l = 0 then none else some (price / l)

/-- External similarity collaborators of the scored path: the rapidfuzz
ratios, the sentence-embedding score, and the TF-IDF fallback, plus the flag
`USE_EMBEDDINGS`.  They are parameters of the model; the engine only combines
their outputs. -/
structure Signals where
  token_set_fn : List Char → List Char → ℚ
  part_fn : List Char → List Char → ℚ
  embed_fn : List Char → List Char → ℚ
  use_embeddings : Bool
  tfidf_fn : List Char → List (List Char) → List ℚ

/-- Model of `compute_features_for_candidate` (lines 498-526). -/
def compute_features_for_candidate (sig : Signals) (query : List Char)
    (candidate : Product) : Feat :=
  let title := normalize_text candidate.title
  let q := normalize_text query
  let emb : ℚ := if sig.use_embeddings then sig.embed_fn q title else 0
  let liters := parse_volume_to_liters candidate.title
  let p_per_l := match candidate.extractedPrice with
    | none => none
    | some pr => compute_price_per_liter pr liters
  let brand := candidate.source
  let brand_match : ℚ := if !brand.isEmpty && containsSub (lowerStr brand) title then 1 else 0
  { candidate := candidate, title_norm := title,
    token_set := some (sig.token_set_fn q title), part := some (sig.part_fn q title),
    embed := some emb, price := candidate.extractedPrice, liters := liters,
    price_per_liter := p_per_l, brand_match := some brand_match, score := 0 }

/-- Model of `normalize_component` (lines 528-534): default for a missing or
NaN value, else clamp to the unit interval. -/
def normalize_component (x : Option ℚ) (default : ℚ) : ℚ :=
  match x with
  | none => default
  | some v => max 0 (min 1 v)

/-- Model of `compute_final_score` (lines 536-551): the weighted sum of the
four clamped signals, not re-clamped. -/
def compute_final_score (feat : Feat) (w : Weights) : ℚ :=
  wTok w * normalize_component feat.token_set 0 +
    wEmb w * normalize_component feat.embed 0 +
    wPart w * normalize_component feat.part 0 +
    wBrand w * normalize_component feat.brand_match 0

/-- Reason codes of the selection result. -/
inductive Reason : Type
  | top_single
  | tie_broken_by_price_per_liter
  | tie_broken_by_abs_price
  | tie_kept_top
  | no_candidates
  | general_query_cheapest
  | no_relevant_products_for_general_query
deriving DecidableEq

/-- Result dictionary of `select_best_product`. -/
structure SelectResult where
  selected : Option Product
  score : ℚ
  confidence_ok : Bool
  reason : Reason
  all_candidates : List Feat
deriving DecidableEq

/-- Descending-score comparison used by `feats.sort(key=..., reverse=True)`. -/
def scoreGe (a b : Feat) : Bool :=
  decide (b.score ≤ a.score)

/-- The stably sorted feature list, best score first. -/
def sortedFeats (feats : List Feat) : List Feat :=
  sortLe scoreGe feats

/-- Top score after sorting (`feats[0]["score"]`). -/
def topScoreOf (feats : List Feat) : ℚ :=
  match sortedFeats feats with
  | [] => 0
  | t :: _ => t.score

/-- Near-top set: every candidate whose score is within `tie_delta` of the
top score, in sorted order. -/
def nearTop (feats : List Feat) (tie_delta : ℚ) : List Feat :=
  (sortedFeats feats).filter (fun f => decide (topScoreOf feats - f.score ≤ tie_delta))

/-- Comparison on defined price-per-liter values. -/
def pplLt (a b : Feat) : Bool :=
  decide (a.price_per_liter.getD 0 < b.price_per_liter.getD 0)

/-- Comparison on defined absolute prices. -/
def priceLt (a b : Feat) : Bool :=
  decide (a.price.getD 0 < b.price.getD 0)

/-- Scored-path tail of `select_best_product` (lines 798-838): sort, collect
the near-top set, tie-break.  Returns `none` for the one unguarded crash
(`near_top[0]` on an empty near-top set, possible only for a negative
`tie_delta`). -/
def tie_break_select (feats : List Feat) (conf_threshold tie_delta : ℚ) :
    Option SelectResult :=
  match sortedFeats feats with
  | [] => some { selected := none, score := 0, confidence_ok := false,
                 reason := .no_candidates, all_candidates := [] }
  | _ :: _ =>
    let near := nearTop feats tie_delta
    let chosen? : Option (Feat × Reason) :=
      if 1 < near.length then
        let with_ppl := near.filter (fun f => f.price_per_liter.isSome)
        if !with_ppl.isEmpty then
          (minByLt pplLt with_ppl).map (fun f => (f, Reason.tie_broken_by_price_per_liter))
        else
          let with_price := near.filter (fun f => f.price.isSome)
          if !with_price.isEmpty then
            (minByLt priceLt with_price).map (fun f => (f, Reason.tie_broken_by_abs_price))
          else near.head?.map (fun f => (f, Reason.tie_kept_top))
      else near.head?.map (fun f => (f, Reason.top_single))
    match chosen? with
    | none => none
    | some (chosen, reason) =>
        some { selected := some chosen.candidate, score := chosen.score,
               confidence_ok := decide (conf_threshold ≤ chosen.score),
               reason := reason, all_candidates := sortedFeats feats }

/-- The single-entry `all_candidates` record built by the general-query
branch of `select_best_product`. -/
def general_candidate_feat (c : Product) : Feat :=
  { candidate := c, title_norm := [], token_set := none, part := none, embed := none,
    price := c.extractedPrice, liters := none, price_per_liter := none,
    brand_match := none, score := 95 / 100 }

/-- TF-IDF substitution step: `for f, s in zip(feats, tfidf_sims):
f["embed"] = s`. -/
def applyTfidf (feats : List Feat) (sims : List ℚ) : List Feat :=
  (List.zipWith (fun f s => { f with embed := some s }) feats sims) ++
    feats.drop sims.length

/-- Model of `select_best_product` (lines 759-838): general queries go to the
cheapest-relevant path; other queries are scored and tie-broken.  `none`
models an uncaught Python exception. -/
def select_best_product (sig : Signals) (query : List Char)
    (hasdata_results : List Product) (weights : Weights)
    (conf_threshold tie_delta : ℚ) : Option SelectResult :=
  if is_general_query query then
    match find_cheapest_relevant_product query hasdata_results with
    | some c =>
        some { selected := some c, score := 95 / 100, confidence_ok := true,
               reason := .general_query_cheapest,
               all_candidates := [general_candidate_feat c] }
    | none =>
        some { selected := none, score := 0, confidence_ok := false,
               reason := .no_relevant_products_for_general_query, all_candidates := [] }
  else
    let feats0 := hasdata_results.map (compute_features_for_candidate sig query)
    let feats1 :=
      if sig.use_embeddings then feats0
      else applyTfidf feats0 (sig.tfidf_fn (normalize_text query) (feats0.map Feat.title_norm))
    let feats2 := feats1.map (fun f => { f with score := compute_final_score f weights })
    tie_break_select feats2 conf_threshold tie_delta

/-- The fixed major-retailer name list `MAJOR_STORES` (lines 955-995). -/
def MAJOR_STORES : List (List Char) :=
  [("walmart").toList, ("wal-mart").toList, ("wal mart").toList,
   ("kroger").toList, ("kroger marketplace").toList,
   ("h-e-b").toList, ("heb").toList, ("h.e.b").toList,
   ("tom thumb").toList,
   ("target").toList,
   ("aldi").toList,
   ("costco").toList,
   ("albertsons").toList,
   ("publix").toList,
   ("whole foods").toList, ("whole foods market").toList,
   ("trader joe").toList, ("trader joes").toList,
   ("safeway").toList,
   ("wegmans").toList,
   ("meijer").toList,
   ("hy-vee").toList,
   ("shoprite").toList,
   ("stop & shop").toList,
   ("giant").toList,
   ("harris teeter").toList,
   ("food lion").toList,
   ("ralphs").toList,
   ("fred meyer").toList,
   ("king soopers").toList,
   ("smiths").toList,
   ("frys").toList,
   ("qfc").toList,
   ("marianos").toList,
   ("jewel-osco").toList,
   ("acme").toList,
   ("shaws").toList,
   ("star market").toList,
   ("vons").toList,
   ("pavilions").toList,
   ("randalls").toList,
   ("market street").toList,
   ("central market").toList,
   ("sprouts").toList,
   ("fresh market").toList,
   ("earth fare").toList]

/-- Canonical form used by the store matcher: lowered and stripped. -/
def canonStore (s : List Char) : List Char :=
  pyStrip (lowerStr s)

/-- Words of length over one of a canonical store name. -/
def storeWords (s : List Char) : List (List Char) :=
  (splitWs s).filter (fun w => 1 < w.length)

/-- Model of the nested `match_store_names` (lines 998-1037): exact
case-insensitive match after stripping always succeeds; otherwise, only when
one of the names contains a major-store entry as substring, succeed when the
two names share a word of length over one. -/
def match_store_names (hasdata_store nearby_store : List Char) : Bool :=
  let hl := canonStore hasdata_store
  let nl := canonStore nearby_store
  if hl = nl then true
  else
    let is_major := MAJOR_STORES.any (fun m => containsSub m hl || containsSub m nl)
    if is_major then
      let hw := storeWords hl
      let nw := storeWords nl
      hw.any (fun w => nw.contains w) || nw.any (fun w => hw.contains w)
    else false

/-- Python exception carried to the caller: an `HTTPException` with its status
code and detail, or any other runtime error. -/
inductive PyErr : Type
  | http : ℕ → List Char → PyErr
  | runtime : PyErr
deriving DecidableEq

/-- Body of a `ProductMatchRequest`. -/
structure MatchRequest where
  query : List Char
  hasdata_results : List Product
  weights : Weights
  conf_threshold : ℚ
  tie_delta : ℚ

/-- Body of a `ProductMatchResponse` (processing time not modelled). -/
structure MatchResponse where
  selected_product : Option Product
  score : ℚ
  confidence_ok : Bool
  reason : Reason

/-- The `try` block of the `/match-products` endpoint (lines 863-896):
validation raising `HTTPException(400, ...)`, then selection and response
construction. -/
def match_products_body (sig : Signals) (req : MatchRequest) :
    Except PyErr MatchResponse :=
  if (pyStrip req.query).isEmpty then
    Except.error (PyErr.http 400 (("Query cannot be empty").toList))
  else if req.hasdata_results.isEmpty then
    Except.error (PyErr.http 400 (("HasData results cannot be empty").toList))
  else
    match select_best_product sig req.query req.hasdata_results req.weights
        req.conf_threshold req.tie_delta with
    | none => Except.error PyErr.runtime
    | some r =>
        Except.ok { selected_product := r.selected, score := r.score,
                    confidence_ok := r.confidence_ok, reason := r.reason }

/-- Model of the `/match-products` endpoint `match_products` (lines 850-900,
identical shape in simple_product_matcher.py lines 276-320): the blanket
`except Exception` catches every exception raised in the `try` block —
including the 400 `HTTPException`s raised by validation — and re-raises
`HTTPException(500, "Internal server error: ...")`. -/
def match_products (sig : Signals) (req : MatchRequest) : Except PyErr MatchResponse :=
  match match_products_body sig req with
  | Except.ok r => Except.ok r
  | Except.error e =>
      Except.error (PyErr.http 500 (match e with
        | PyErr.http _ d => d
        | PyErr.runtime => []))

/-- The fold inside `minByLt` returns one of its inputs. -/
theorem foldlMin_mem {α : Type} (lt : α → α → Bool) :
    ∀ (t : List α) (h : α),
      t.foldl (fun best x => if lt x best then x else best) h ∈ h :: t := by
  intro t
  induction t with
  | nil => intro h; simp
  | cons y t ih =>
      intro h
      simp only [List.foldl_cons]
      rcases List.mem_cons.mp (ih (if lt y h then y else h)) with h1 | h1
      · rw [h1]
        by_cases hy : lt y h = true
        · simp [hy, List.mem_cons]
        · simp [hy, List.mem_cons]
      · simp only [List.mem_cons]
        right; right; exact h1

/-- Nothing in the folded-over list is strictly below the fold result, for a
strict comparison that is irreflexive, transitive and co-transitive. -/
theorem foldlMin_not_lt {α : Type} (lt : α → α → Bool)
    (hirr : ∀ a, lt a a = false)
    (htr : ∀ a b c, lt a b = true → lt b c = true → lt a c = true)
    (hco : ∀ a b c, lt a c = true → lt a b = true ∨ lt b c = true) :
    ∀ (t : List α) (h : α), ∀ x ∈ h :: t,
      lt x (t.foldl (fun best y => if lt y best then y else best) h) = false := by
  intro t
  induction t with
  | nil =>
      intro h x hx
      rcases List.mem_cons.mp hx with rfl | h1
      · exact hirr x
      · simp at h1
  | cons y t ih =>
      intro h x hx
      simp only [List.foldl_cons]
      by_cases hy : lt y h = true
      · rw [if_pos hy]
        rcases List.mem_cons.mp hx with rfl | h1
        · cases hxr : lt x (t.foldl (fun best z => if lt z best then z else best) y) with
          | false => rfl
          | true =>
              have hyr : lt y (t.foldl (fun best z => if lt z best then z else best) y) = true :=
                htr y x _ hy hxr
              have hnone := ih y y (List.mem_cons_self y t)
              rw [hnone] at hyr
              exact absurd hyr (by simp)
        · rcases List.mem_cons.mp h1 with rfl | h2
          · exact ih x x (List.mem_cons_self x t)
          · exact ih y x (List.mem_cons_of_mem y h2)
      · have hy' : lt y h = false := by
          cases hb : lt y h with
          | false => rfl
          | true => exact absurd hb hy
        rw [if_neg hy]
        rcases List.mem_cons.mp hx with rfl | h1
        · exact ih x x (List.mem_cons_self x t)
        · rcases List.mem_cons.mp h1 with rfl | h2
          · cases hxr : lt x (t.foldl (fun best z => if lt z best then z else best) h) with
            | false => rfl
            | true =>
                rcases hco x h _ hxr with hc | hc
                · rw [hy'] at hc; exact absurd hc (by simp)
                · have hnone := ih h h (List.mem_cons_self h t)
                  rw [hnone] at hc
                  exact absurd hc (by simp)
          · exact ih h x (List.mem_cons_of_mem h h2)

/-- Specification of `minByLt` on a nonempty list. -/
theorem minByLt_spec {α : Type} (lt : α → α → Bool)
    (hirr : ∀ a, lt a a = false)
    (htr : ∀ a b c, lt a b = true → lt b c = true → lt a c = true)
    (hco : ∀ a b c, lt a c = true → lt a b = true ∨ lt b c = true)
    (l : List α) (m : α) (hm : minByLt lt l = some m) :
    m ∈ l ∧ ∀ x ∈ l, lt x m = false := by
  cases l with
  | nil => simp [minByLt] at hm
  | cons h t =>
      simp only [minByLt, Option.some.injEq] at hm
      subst hm
      exact ⟨foldlMin_mem lt t h, foldlMin_not_lt lt hirr htr hco t h⟩

/-- The minimum of a nonempty list exists. -/
theorem minByLt_isSome {α : Type} (lt : α → α → Bool) (l : List α) (hne : l ≠ []) :
    ∃ m, minByLt lt l = some m := by
  cases l with
  | nil => exact absurd rfl hne
  | cons h t => exact ⟨_, rfl⟩

/-- Membership through `insertLe`. -/
theorem mem_insertLe {α : Type} (le : α → α → Bool) (a x : α) (l : List α) :
    x ∈ insertLe le a l ↔ x = a ∨ x ∈ l := by
  induction l with
  | nil => simp [insertLe]
  | cons b t ih =>
      by_cases hab : le a b = true
      · simp [insertLe, hab, List.mem_cons]
        try tauto
      · simp [insertLe, hab, List.mem_cons, ih]
        try tauto

/-- Membership through `sortLe`. -/
theorem mem_sortLe {α : Type} (le : α → α → Bool) (x : α) (l : List α) :
    x ∈ sortLe le l ↔ x ∈ l := by
  induction l with
  | nil => simp [sortLe]
  | cons a t ih => simp [sortLe, mem_insertLe, List.mem_cons, ih]

/-- An insertion result is never empty. -/
theorem insertLe_ne_nil {α : Type} (le : α → α → Bool) (a : α) (l : List α) :
    insertLe le a l ≠ [] := by
  cases l with
  | nil => simp [insertLe]
  | cons b t =>
      by_cases hab : le a b = true
      · simp [insertLe, hab]
      · simp [insertLe, hab]

/-- Sorting yields the empty list only for the empty list. -/
theorem sortLe_eq_nil_iff {α : Type} (le : α → α → Bool) (l : List α) :
    sortLe le l = [] ↔ l = [] := by
  cases l with
  | nil => simp [sortLe]
  | cons a t =>
      simp only [sortLe]
      constructor
      · intro h; exact absurd h (insertLe_ne_nil le a (sortLe le t))
      · intro h; cases h

/-- Insertion preserves sortedness for a total transitive comparison. -/
theorem pairwise_insertLe {α : Type} (le : α → α → Bool)
    (htot : ∀ a b, le a b = true ∨ le b a = true)
    (htr : ∀ a b c, le a b = true → le b c = true → le a c = true)
    (a : α) (l : List α) (hl : l.Pairwise (fun x y => le x y = true)) :
    (insertLe le a l).Pairwise (fun x y => le x y = true) := by
  induction l with
  | nil => simp [insertLe]
  | cons b t ih =>
      rcases List.pairwise_cons.mp hl with ⟨hb, ht⟩
      by_cases hab : le a b = true
      · simp only [insertLe, hab, if_true]
        refine List.pairwise_cons.mpr ⟨?_, hl⟩
        intro x hx
        rcases List.mem_cons.mp hx with rfl | h2
        · exact hab
        · exact htr a b x hab (hb x h2)
      · simp only [insertLe, hab, if_false]
        refine List.pairwise_cons.mpr ⟨?_, ih ht⟩
        intro x hx
        rcases (mem_insertLe le a x t).mp hx with rfl | h2
        · rcases htot x b with h3 | h3
          · exact absurd h3 (by simpa using hab)
          · exact h3
        · exact hb x h2

/-- Sortedness of `sortLe` for a total transitive comparison. -/
theorem pairwise_sortLe {α : Type} (le : α → α → Bool)
    (htot : ∀ a b, le a b = true ∨ le b a = true)
    (htr : ∀ a b c, le a b = true → le b c = true → le a c = true)
    (l : List α) : (sortLe le l).Pairwise (fun x y => le x y = true) := by
  induction l with
  | nil => simp [sortLe]
  | cons a t ih => exact pairwise_insertLe le htot htr a (sortLe le t) ih

/-- Irreflexivity, transitivity and co-transitivity for a decided strict
comparison of rational keys, packaged for `minByLt_spec`. -/
theorem keyLt_irr {α : Type} (key : α → ℚ) :
    ∀ a, (fun a b => decide (key a < key b)) a a = false := by
  intro a; simp

/-- Transitivity for a decided strict comparison of rational keys. -/
theorem keyLt_tr {α : Type} (key : α → ℚ) :
    ∀ a b c, (fun a b => decide (key a < key b)) a b = true →
      (fun a b => decide (key a < key b)) b c = true →
      (fun a b => decide (key a < key b)) a c = true := by
  intro a b c hab hbc
  simp only [decide_eq_true_eq] at hab hbc ⊢
  exact lt_trans hab hbc

/-- Co-transitivity for a decided strict comparison of rational keys. -/
theorem keyLt_co {α : Type} (key : α → ℚ) :
    ∀ a b c, (fun a b => decide (key a < key b)) a c = true →
      (fun a b => decide (key a < key b)) a b = true ∨
      (fun a b => decide (key a < key b)) b c = true := by
  intro a b c hac
  simp only [decide_eq_true_eq] at hac ⊢
  rcases lt_or_le (key a) (key b) with h | h
  · exact Or.inl h
  · exact Or.inr (lt_of_le_of_lt h hac)

/-- Specification of `pick_lowest_price`: a pick is a priced member of the
list of minimal price among its priced members. -/
theorem pick_lowest_price_spec (ps : List Product) (c : Product)
    (hc : pick_lowest_price ps = some c) :
    c ∈ ps ∧ c.extractedPrice.isSome = true ∧
      ∀ p ∈ ps, p.extractedPrice.isSome = true → priceD c ≤ priceD p := by
  unfold pick_lowest_price at hc
  have hspec := minByLt_spec (fun a b => decide (priceD a < priceD b))
    (keyLt_irr priceD) (keyLt_tr priceD) (keyLt_co priceD) _ c hc
  rcases hspec with ⟨hmem, hmin⟩
  rcases List.mem_filter.mp hmem with ⟨hin, hpr⟩
  refine ⟨hin, hpr, ?_⟩
  intro p hp hps
  have hmemf : p ∈ ps.filter (fun q => q.extractedPrice.isSome) :=
    List.mem_filter.mpr ⟨hp, hps⟩
  have := hmin p hmemf
  simp only [decide_eq_false_iff_not, not_lt] at this
  exact this

/-- A pick exists as soon as one member is priced. -/
theorem pick_lowest_price_isSome (ps : List Product)
    (h : ∃ p ∈ ps, p.extractedPrice.isSome = true) :
    ∃ c, pick_lowest_price ps = some c := by
  rcases h with ⟨p, hp, hps⟩
  unfold pick_lowest_price
  apply minByLt_isSome
  intro hnil
  have : p ∈ ps.filter (fun q => q.extractedPrice.isSome) :=
    List.mem_filter.mpr ⟨hp, hps⟩
  rw [hnil] at this
  simp at this

/-- Totality of the descending-score comparison. -/
theorem scoreGe_total : ∀ a b : Feat, scoreGe a b = true ∨ scoreGe b a = true := by
  intro a b
  simp only [scoreGe, decide_eq_true_eq]
  exact le_total b.score a.score

/-- Transitivity of the descending-score comparison. -/
theorem scoreGe_trans : ∀ a b c : Feat,
    scoreGe a b = true → scoreGe b c = true → scoreGe a c = true := by
  intro a b c hab hbc
  simp only [scoreGe, decide_eq_true_eq] at hab hbc ⊢
  exact le_trans hbc hab

/-- The top score bounds every member's score. -/
theorem topScoreOf_max (feats : List Feat) : ∀ f ∈ feats, f.score ≤ topScoreOf feats := by
  intro f hf
  have hmem : f ∈ sortedFeats feats := (mem_sortLe scoreGe f feats).mpr hf
  rcases hs : sortedFeats feats with _ | ⟨t, rest⟩
  · rw [hs] at hmem; simp at hmem
  · rw [hs] at hmem
    unfold topScoreOf
    rw [hs]
    rcases List.mem_cons.mp hmem with rfl | h2
    · exact le_refl _
    · have hp := pairwise_sortLe scoreGe scoreGe_total scoreGe_trans feats
      have hs' : sortLe scoreGe feats = t :: rest := hs
      rw [hs'] at hp
      rcases List.pairwise_cons.mp hp with ⟨hhead, _⟩
      have := hhead f h2
      simpa [scoreGe, decide_eq_true_eq] using this

/-- The top score is attained by a member. -/
theorem topScoreOf_attained (feats : List Feat) (hne : feats ≠ []) :
    ∃ t ∈ feats, topScoreOf feats = t.score := by
  rcases hs : sortedFeats feats with _ | ⟨t, rest⟩
  · exact absurd ((sortLe_eq_nil_iff scoreGe feats).mp hs) hne
  · refine ⟨t, ?_, ?_⟩
    · have : t ∈ sortedFeats feats := by rw [hs]; exact List.mem_cons_self t rest
      exact (mem_sortLe scoreGe t feats).mp this
    · unfold topScoreOf; rw [hs]

/-- Membership in the near-top set. -/
theorem mem_nearTop (feats : List Feat) (tie_delta : ℚ) (f : Feat) :
    f ∈ nearTop feats tie_delta ↔
      f ∈ feats ∧ topScoreOf feats - f.score ≤ tie_delta := by
  unfold nearTop sortedFeats
  simp [List.mem_filter, mem_sortLe]

/-- With a nonnegative delta, the near-top set starts with the sorted head. -/
theorem nearTop_cons (feats : List Feat) (tie_delta : ℚ) (hδ : 0 ≤ tie_delta)
    (t : Feat) (rest : List Feat) (hs : sortedFeats feats = t :: rest) :
    nearTop feats tie_delta =
      t :: rest.filter (fun f => decide (topScoreOf feats - f.score ≤ tie_delta)) := by
  have htop : topScoreOf feats = t.score := by unfold topScoreOf; rw [hs]
  unfold nearTop
  rw [hs, List.filter_cons]
  have hcond : decide (topScoreOf feats - t.score ≤ tie_delta) = true := by
    rw [htop]; simpa using hδ
  rw [hcond]
  simp

/-- Chain of five early returns as a first-hit scan. -/
theorem pyOr_chain5 {α : Type} (o1 o2 o3 o4 o5 : Option α) :
    pyOr o1 (pyOr o2 (pyOr o3 (pyOr o4 o5))) = firstSome [o1, o2, o3, o4, o5] := by
  cases o1 <;> cases o2 <;> cases o3 <;> cases o4 <;> cases o5 <;> simp [pyOr, firstSome]

/-- Chain of seven early returns as a first-hit scan. -/
theorem pyOr_chain7 {α : Type} (o1 o2 o3 o4 o5 o6 o7 : Option α) :
    pyOr o1 (pyOr o2 (pyOr o3 (pyOr o4 (pyOr o5 (pyOr o6 o7))))) =
      firstSome [o1, o2, o3, o4, o5, o6, o7] := by
  cases o1 <;> cases o2 <;> cases o3 <;> cases o4 <;> cases o5 <;> cases o6 <;> cases o7 <;>
    simp [pyOr, firstSome]

/-- A title on which all seven pattern searches fail parses to `None`. -/
theorem parse_volume_none_of_searches (title : List Char)
    (h1 : volSearch true galAlts (lowerStr title) = none)
    (h2 : volSearch true ozAlts (lowerStr title) = none)
    (h3 : volSearch true literAlts (lowerStr title) = none)
    (h4 : volSearch true mlAlts (lowerStr title) = none)
    (h5 : volSearch true qtAlts (lowerStr title) = none)
    (h6 : volSearch true ptAlts (lowerStr title) = none)
    (h7 : volSearch false galAlts (lowerStr title) = none) :
    parse_volume_to_liters title = none := by
  simp only [parse_volume_to_liters, h1, h2, h3, h4, h5, h6, h7, Option.map_none', pyOr]

/-- The query and item string `milk`. -/
def strMilk : List Char := ("milk").toList

/-- The brand string `acme` of the tier-1 counterexample. -/
def strAcme : List Char := ("acme").toList

/-- Title matching item, brand and quantity of the counterexample. -/
def titleAcmeMilk : List Char := ("acme milk 1 l").toList

/-- Title matching only the item of the counterexample. -/
def titleMilkSoap : List Char := ("milk soap").toList

/-- Unpriced candidate matching item, brand and quantity. -/
def prodAcmeMilk : Product :=
  { title := titleAcmeMilk, extractedPrice := none, source := [] }

/-- Priced candidate matching only the item. -/
def prodMilkSoap : Product :=
  { title := titleMilkSoap, extractedPrice := some 1, source := [] }

/-- Parsed volume of the all-three title: one liter. -/
theorem parse_titleAcmeMilk : parse_volume_to_liters titleAcmeMilk = some 1 := by
  simp only [parse_volume_to_liters]
  rw [show volSearch true galAlts (lowerStr titleAcmeMilk) = none from by decide]
  rw [show volSearch true ozAlts (lowerStr titleAcmeMilk) = none from by decide]
  rw [show volSearch true literAlts (lowerStr titleAcmeMilk) = some (1, 0, 0) from by decide]
  simp only [Option.map_none', Option.map_some', pyOr, ratOfParts]
  norm_num

/-- Parsed volume of the item-only title: none. -/
theorem parse_titleMilkSoap : parse_volume_to_liters titleMilkSoap = none := by
  apply parse_volume_none_of_searches <;> decide

/-- Claim C1 (counterexample): with item `milk`, brand `acme` and one liter,
the tier-1 filter over these two candidates is non-empty (it holds the
unpriced `acme milk 1 l`), yet the selector returns the priced `milk soap`,
which matches only the item.  The claim's tier cascade stops at the first
non-empty tier, so it would forbid this selection. -/
theorem C1_counterexample :
    select_by_priority_conditions [prodAcmeMilk, prodMilkSoap] (some strMilk) (some strAcme)
        (some 1) = some prodMilkSoap ∧
    matchesAllThree strMilk strAcme 1 prodAcmeMilk = true ∧
    matchesAllThree strMilk strAcme 1 prodMilkSoap = false ∧
    condTok (some strMilk) prodMilkSoap = true := by
  have hqA : condQty (some 1) prodAcmeMilk = true := by
    have hp : parse_volume_to_liters prodAcmeMilk.title = some 1 := parse_titleAcmeMilk
    simp only [condQty, title_matches_quantity_liters, hp]
    norm_num
  have hqB : condQty (some 1) prodMilkSoap = false := by
    have hp : parse_volume_to_liters prodMilkSoap.title = none := parse_titleMilkSoap
    simp only [condQty, title_matches_quantity_liters, hp]
  have htA1 : condTok (some strMilk) prodAcmeMilk = true := by decide
  have htA2 : condTok (some strAcme) prodAcmeMilk = true := by decide
  have htB1 : condTok (some strMilk) prodMilkSoap = true := by decide
  have htB2 : condTok (some strAcme) prodMilkSoap = false := by decide
  have hhi : hasTok (some strMilk) = true := by decide
  have hhb : hasTok (some strAcme) = true := by decide
  refine ⟨?_, ?_, ?_, htB1⟩
  · simp only [select_by_priority_conditions, hhi, hhb, Option.isSome_some,
      Bool.and_self, Bool.and_true, Bool.true_and, if_true,
      List.filter_cons, List.filter_nil, htA1, htA2, htB1, htB2, hqA, hqB,
      Bool.false_and, Bool.and_false, Bool.false_or, Bool.or_false, Bool.true_or,
      Bool.or_true, if_false]
    simp [pick_lowest_price, minByLt, pyOr, prodAcmeMilk, prodMilkSoap, List.filter]
  · simp only [matchesAllThree, htA1, htA2, hqA, Bool.and_self]
  · simp only [matchesAllThree, htB2, Bool.false_and, Bool.and_false]

/-- Claim C1 (amended): with item, brand and quantity all present, the
selector equals the four-tier cascade that stops at the first tier whose
`pick_lowest_price` is defined (that is, the first tier holding a priced
candidate), with cheapest-overall as final fallback; in particular, whenever
some candidate with a numeric price matches item, brand and quantity
simultaneously, the selected candidate also matches all three and is a
lowest-priced such member. -/
theorem C1_amended_priority_cascade (ps : List Product) (item brand : List Char) (qty : ℚ)
    (hi : item ≠ []) (hb : brand ≠ []) :
    select_by_priority_conditions ps (some item) (some brand) (some qty) =
      priority_cascade_all_three ps item brand qty ∧
    (∀ a ∈ ps, matchesAllThree item brand qty a = true → a.extractedPrice.isSome = true →
      ∃ c, select_by_priority_conditions ps (some item) (some brand) (some qty) = some c ∧
        matchesAllThree item brand qty c = true ∧ c ∈ ps ∧ c.extractedPrice.isSome = true ∧
        ∀ b ∈ ps, matchesAllThree item brand qty b = true → b.extractedPrice.isSome = true →
          priceD c ≤ priceD b) := by
  have hIt : hasTok (some item) = true := by
    cases item with
    | nil => exact absurd rfl hi
    | cons a t => rfl
  have hBr : hasTok (some brand) = true := by
    cases brand with
    | nil => exact absurd rfl hb
    | cons a t => rfl
  have hMa : ∀ p : Product, matchesAllThree item brand qty p =
      (condTok (some item) p && condTok (some brand) p && condQty (some qty) p) := by
    intro p; rfl
  constructor
  · simp only [select_by_priority_conditions, priority_cascade_all_three, hIt, hBr,
      Option.isSome_some, Bool.and_self, Bool.and_true, Bool.true_and, if_true]
    exact pyOr_chain5 _ _ _ _ _
  · intro a ha hall hpr
    have hmemf : a ∈ ps.filter (fun p =>
        condTok (some item) p && condTok (some brand) p && condQty (some qty) p) := by
      refine List.mem_filter.mpr ⟨ha, ?_⟩
      rw [← hMa a]; exact hall
    rcases pick_lowest_price_isSome _ ⟨a, hmemf, hpr⟩ with ⟨c, hc⟩
    have hsel : select_by_priority_conditions ps (some item) (some brand) (some qty) = some c := by
      simp only [select_by_priority_conditions, hIt, hBr, Option.isSome_some,
        Bool.and_self, Bool.and_true, Bool.true_and, if_true, hc, pyOr]
    rcases pick_lowest_price_spec _ _ hc with ⟨hcmem, hcpr, hcmin⟩
    rcases List.mem_filter.mp hcmem with ⟨hcin, hcpred⟩
    refine ⟨c, hsel, ?_, hcin, hcpr, ?_⟩
    · rw [hMa c]; exact hcpred
    · intro b hbmem hbmatch hbpr
      exact hcmin b (List.mem_filter.mpr ⟨hbmem, by rw [← hMa b]; exact hbmatch⟩) hbpr

/-- Witness for C1: the amended cascade equality evaluated at the concrete
counterexample inputs. -/
theorem C1_witness :
    select_by_priority_conditions [prodMilkSoap] (some strMilk) (some strAcme) (some 1) =
      priority_cascade_all_three [prodMilkSoap] strMilk strAcme 1 :=
  (C1_amended_priority_cascade [prodMilkSoap] strMilk strAcme 1 (by decide) (by decide)).1

/-- Concrete unit string `1 gal`. -/
def strGal1 : List Char := ("1 gal").toList

/-- Concrete unit string `128 fl oz`. -/
def strFlOz128 : List Char := ("128 fl oz").toList

/-- Concrete unit string `500 ml`. -/
def strMl500 : List Char := ("500 ml").toList

/-- Spec-side table of the seven volume patterns in source order: the unit
alternatives, whether whitespace may separate number and unit, and the
conversion applied to the parsed value. -/
def volume_pattern_table : List (List (List RTok) × Bool × (ℚ → ℚ)) :=
  [(galAlts, true, fun v => v * galFactor),
   (ozAlts, true, fun v => v * ozFactor),
   (literAlts, true, fun v => v),
   (mlAlts, true, fun v => v / 1000),
   (qtAlts, true, fun v => v * qtFactor),
   (ptAlts, true, fun v => v * ptFactor),
   (galAlts, false, fun v => v * galFactor)]

/-- Spec-side reading of the unit parser: first pattern of the table that
matches wins, converted by its factor. -/
def parse_volume_spec (title : List Char) : Option ℚ :=
  firstSome (volume_pattern_table.map (fun e =>
    (volSearch e.2.1 e.1 (lowerStr title)).map (fun v => e.2.2 (ratOfParts v))))

/-- Claim C3: the volume parser equals the ordered first-match scan over the
seven patterns with their documented conversions; `1 gal` parses to exactly
3.78541, `128 fl oz` to within 0.01 of 3.78541, `500 ml` to 0.5, and a string
matched by no pattern parses to `None`. -/
theorem C3_volume_cascade :
    (∀ t, parse_volume_to_liters t = parse_volume_spec t) ∧
    parse_volume_to_liters strGal1 = some (378541 / 100000) ∧
    (∃ v, parse_volume_to_liters strFlOz128 = some v ∧ |v - 378541 / 100000| ≤ 1 / 100) ∧
    parse_volume_to_liters strMl500 = some (1 / 2) ∧
    (∀ t, (∀ e ∈ volume_pattern_table, volSearch e.2.1 e.1 (lowerStr t) = none) →
      parse_volume_to_liters t = none) := by
  refine ⟨?_, ?_, ?_, ?_, ?_⟩
  · intro t
    simp only [parse_volume_spec, volume_pattern_table, List.map_cons, List.map_nil,
      parse_volume_to_liters]
    exact pyOr_chain7 _ _ _ _ _ _ _
  · simp only [parse_volume_to_liters]
    rw [show volSearch true galAlts (lowerStr strGal1) = some (1, 0, 0) from by decide]
    simp only [Option.map_some', pyOr, ratOfParts]
    norm_num [galFactor]
  · refine ⟨3785408 / 1000000, ?_, ?_⟩
    · simp only [parse_volume_to_liters]
      rw [show volSearch true galAlts (lowerStr strFlOz128) = none from by decide]
      rw [show volSearch true ozAlts (lowerStr strFlOz128) = some (128, 0, 0) from by decide]
      simp only [Option.map_none', Option.map_some', pyOr, ratOfParts]
      norm_num [ozFactor]
    · rw [abs_le]
      constructor <;> norm_num
  · simp only [parse_volume_to_liters]
    rw [show volSearch true galAlts (lowerStr strMl500) = none from by decide]
    rw [show volSearch true ozAlts (lowerStr strMl500) = none from by decide]
    rw [show volSearch true literAlts (lowerStr strMl500) = none from by decide]
    rw [show volSearch true mlAlts (lowerStr strMl500) = some (500, 0, 0) from by decide]
    simp only [Option.map_none', Option.map_some', pyOr, ratOfParts]
    norm_num
  · intro t h
    apply parse_volume_none_of_searches
    · exact h _ (List.Mem.head _)
    · exact h _ (List.Mem.tail _ (List.Mem.head _))
    · exact h _ (List.Mem.tail _ (List.Mem.tail _ (List.Mem.head _)))
    · exact h _ (List.Mem.tail _ (List.Mem.tail _ (List.Mem.tail _ (List.Mem.head _))))
    · exact h _ (List.Mem.tail _ (List.Mem.tail _ (List.Mem.tail _ (List.Mem.tail _
        (List.Mem.head _)))))
    · exact h _ (List.Mem.tail _ (List.Mem.tail _ (List.Mem.tail _ (List.Mem.tail _
        (List.Mem.tail _ (List.Mem.head _))))))
    · exact h _ (List.Mem.tail _ (List.Mem.tail _ (List.Mem.tail _ (List.Mem.tail _
        (List.Mem.tail _ (List.Mem.tail _ (List.Mem.head _)))))))

/-- Witness for C3: the no-pattern clause evaluated at `milk`, which matches
no unit pattern. -/
theorem C3_witness : parse_volume_to_liters strMilk = none :=
  C3_volume_cascade.2.2.2.2 strMilk (by decide)

/-- The strip is a trailing-strip of a leading-strip. -/
theorem pyStrip_eq (s : List Char) :
    pyStrip s = List.rdropWhile isSpaceChar (s.dropWhile isSpaceChar) := rfl

/-- Members of a squeezed list come from the original. -/
theorem mem_squeezeSpaces (c : Char) : ∀ l : List Char, c ∈ squeezeSpaces l → c ∈ l := by
  intro l
  induction l with
  | nil => simp [squeezeSpaces]
  | cons a t ih =>
      cases t with
      | nil => simp [squeezeSpaces]
      | cons b r =>
          simp only [squeezeSpaces]
          by_cases hab : a = ' ' && b = ' '
          · rw [if_pos hab]
            intro h
            exact List.mem_cons_of_mem a (ih h)
          · rw [if_neg hab]
            intro h
            rcases List.mem_cons.mp h with rfl | h2
            · exact List.mem_cons_self c _
            · exact List.mem_cons_of_mem a (ih h2)

/-- A squeezed nonempty list keeps its head, so its head is a space exactly
when the original head is. -/
theorem squeezeSpaces_head (b : Char) : ∀ t : List Char,
    ∃ h rest, squeezeSpaces (b :: t) = h :: rest ∧ (h = ' ' ↔ b = ' ') := by
  intro t
  induction t generalizing b with
  | nil => exact ⟨b, [], rfl, Iff.rfl⟩
  | cons c r ih =>
      simp only [squeezeSpaces]
      by_cases hbc : b = ' ' && c = ' '
      · rw [if_pos hbc]
        rcases ih c with ⟨h, rest, heq, hiff⟩
        refine ⟨h, rest, heq, ?_⟩
        simp only [Bool.and_eq_true, decide_eq_true_eq] at hbc
        obtain ⟨hb, hc⟩ := hbc
        rw [hiff, hc, hb]
      · rw [if_neg hbc]
        exact ⟨b, _, rfl, Iff.rfl⟩

/-- Squeezing leaves no two adjacent spaces. -/
theorem chain'_squeezeSpaces : ∀ l : List Char,
    List.Chain' (fun a b => ¬(a = ' ' ∧ b = ' ')) (squeezeSpaces l) := by
  intro l
  induction l with
  | nil => simp [squeezeSpaces]
  | cons a t ih =>
      cases t with
      | nil => simp [squeezeSpaces]
      | cons b r =>
          simp only [squeezeSpaces]
          by_cases hab : a = ' ' && b = ' '
          · rw [if_pos hab]
            exact ih
          · rw [if_neg hab]
            rcases squeezeSpaces_head b r with ⟨h, rest, heq, hiff⟩
            rw [heq]
            rw [heq] at ih
            refine List.chain'_cons.mpr ⟨?_, ih⟩
            intro ⟨ha, hh⟩
            exact hab (by simp [ha, hiff.mp hh])

/-- The head of a `dropWhile` result fails the predicate. -/
theorem dropWhile_head_false (p : Char → Bool) :
    ∀ (l : List Char) (c : Char) (rest : List Char),
      l.dropWhile p = c :: rest → p c = false := by
  intro l
  induction l with
  | nil => intro c rest h; simp [List.dropWhile] at h
  | cons a t ih =>
      intro c rest h
      rw [List.dropWhile_cons] at h
      by_cases hp : p a = true
      · rw [if_pos hp] at h
        exact ih c rest h
      · rw [if_neg hp] at h
        rcases List.cons.injEq .. ▸ h with ⟨rfl, _⟩
        cases hb : p a with
        | false => rfl
        | true => exact absurd hb hp

/-- Claimed character set of C8: letters, digits, space, ampersand, percent,
period, comma, hyphen — without parentheses. -/
def claimAllowedChar (c : Char) : Bool :=
  ('a' ≤ c && c ≤ 'z') || ('A' ≤ c && c ≤ 'Z') || ('0' ≤ c && c ≤ '9') ||
    c = ' ' || c = '&' || c = '%' || c = '.' || c = ',' || c = '-'

/-- Concrete input with parentheses. -/
def strParenA : List Char := ("(a)").toList

/-- Concrete input exercising the punctuation mapping. -/
def strPunct : List Char := ("A–B—C’D").toList

/-- Expected normalization of `strPunct`. -/
def strPunctResult : List Char := ("a-b-c d").toList

/-- Claim C8 (counterexample): parentheses survive normalization, but the
claim's allowed character list excludes them. -/
theorem C8_counterexample :
    normalize_text strParenA = strParenA ∧ '(' ∈ normalize_text strParenA ∧
      claimAllowedChar '(' = false := by
  refine ⟨by decide, by decide, by decide⟩

/-- Claim C8 (amended): the normalizer's output is empty for empty input,
contains only characters of the kept class — lowercase letters, digits,
space, `&`, `%`, `(`, `)`, `.`, `,`, `-` (so in particular it is lowercase) —
never holds two adjacent spaces, never starts or ends with a space, and maps
en dash, em dash and the right single quote to their ASCII replacements. -/
theorem C8_amended_normalizer (s : List Char) :
    normalize_text ([] : List Char) = [] ∧
    (∀ c ∈ normalize_text s, keepChar c = true) ∧
    List.Chain' (fun a b => ¬(a = ' ' ∧ b = ' ')) (normalize_text s) ∧
    (∀ c, (normalize_text s).head? = some c → ¬c = ' ') ∧
    (∀ c, (normalize_text s).getLast? = some c → ¬c = ' ') ∧
    normalize_text strPunct = strPunctResult := by
  by_cases hs : s.isEmpty
  · have hz : normalize_text s = [] := by simp [normalize_text, hs]
    refine ⟨rfl, ?_, ?_, ?_, ?_, by decide⟩ <;> simp [hz]
  · have hn : normalize_text s =
        pyStrip (squeezeSpaces (((lowerStr s).map mapPunct).map
          (fun c => if keepChar c then c else ' '))) := by
      simp [normalize_text, hs]
    set S2 := ((lowerStr s).map mapPunct).map (fun c => if keepChar c then c else ' ') with hS2
    set SQ := squeezeSpaces S2 with hSQ
    set A := SQ.dropWhile isSpaceChar with hA
    have hout : normalize_text s = List.rdropWhile isSpaceChar A := by
      rw [hn, pyStrip_eq]
    have houtA : normalize_text s <+: A := by
      rw [hout]; exact List.rdropWhile_prefix _ _
    have hASQ : A <:+ SQ := List.dropWhile_suffix _
    refine ⟨rfl, ?_, ?_, ?_, ?_, by decide⟩
    · intro c hc
      have hc2 : c ∈ S2 := by
        have h1 : c ∈ A := houtA.sublist.subset hc
        have h2 : c ∈ SQ := hASQ.sublist.subset h1
        exact mem_squeezeSpaces c S2 h2
      rcases List.mem_map.mp hc2 with ⟨x, _, hx⟩
      by_cases hk : keepChar x = true
      · rw [if_pos hk] at hx; rw [← hx]; exact hk
      · rw [if_neg hk] at hx; rw [← hx]; decide
    · have hchain : List.Chain' (fun a b => ¬(a = ' ' ∧ b = ' ')) SQ :=
        chain'_squeezeSpaces S2
      exact List.Chain'.prefix (hchain.suffix hASQ) houtA
    · intro c hh
      rcases hhd : normalize_text s with _ | ⟨o, rest⟩
      · rw [hhd] at hh; simp at hh
      · rw [hhd] at hh
        simp only [List.head?_cons, Option.some.injEq] at hh
        rcases houtA with ⟨t, ht⟩
        rw [hhd] at ht
        have hAeq : SQ.dropWhile isSpaceChar = o :: (rest ++ t) := by
          rw [← hA, ← ht]; rfl
        have hof := dropWhile_head_false isSpaceChar SQ o (rest ++ t) hAeq
        rw [← hh]
        intro hceq
        rw [hceq] at hof
        simp [isSpaceChar] at hof
    · intro c hl
      have hne : normalize_text s ≠ [] := by
        intro hz; rw [hz] at hl; simp at hl
      rw [hout] at hne hl
      have hlast := List.rdropWhile_last_not (p := isSpaceChar) (l := A) hne
      have hgl : (List.rdropWhile isSpaceChar A).getLast hne =
          c := by
        have := List.getLast?_eq_getLast (List.rdropWhile isSpaceChar A) hne
        rw [hl] at this
        exact (Option.some.injEq .. ▸ this).symm
      rw [hgl] at hlast
      intro hceq
      rw [hceq] at hlast
      simp [isSpaceChar] at hlast

/-- Witness for C8: the character-set clause evaluated on a concrete input
whose output contains the letter `a`. -/
theorem C8_witness : keepChar 'a' = true :=
  (C8_amended_normalizer strParenA).2.1 'a' (by decide)

/-- Store name with surrounding whitespace. -/
def strFooSpace : List Char := (" foo").toList

/-- Same store name without the whitespace. -/
def strFoo : List Char := ("foo").toList

/-- Claim C9 (counterexample): the matcher strips surrounding whitespace
before its exact comparison, so ` foo` matches `foo` although the two are not
case-insensitively equal as strings and neither contains a major-retailer
entry. -/
theorem C9_counterexample :
    match_store_names strFooSpace strFoo = true ∧
    ¬lowerStr strFooSpace = lowerStr strFoo ∧
    (∀ m ∈ MAJOR_STORES, containsSub m (lowerStr strFooSpace) = false ∧
      containsSub m (lowerStr strFoo) = false) := by
  refine ⟨by decide, by decide, by decide⟩

/-- Claim C9 (amended): after lowercasing and stripping surrounding
whitespace, the matcher returns true exactly when the canonical names are
equal, or some major-retailer entry is a substring of one of them and they
share a whitespace-delimited word of length over one; names without a
major-retailer entry match only when canonically equal. -/
theorem C9_amended_store_matcher (a b : List Char) :
    (match_store_names a b = true ↔
      (canonStore a = canonStore b ∨
        ((∃ m ∈ MAJOR_STORES, containsSub m (canonStore a) = true ∨
            containsSub m (canonStore b) = true) ∧
          ∃ w, w ∈ storeWords (canonStore a) ∧ w ∈ storeWords (canonStore b)))) ∧
    ((∀ m ∈ MAJOR_STORES, containsSub m (canonStore a) = false ∧
        containsSub m (canonStore b) = false) →
      (match_store_names a b = true ↔ canonStore a = canonStore b)) := by
  have hmain : match_store_names a b = true ↔
      (canonStore a = canonStore b ∨
        ((∃ m ∈ MAJOR_STORES, containsSub m (canonStore a) = true ∨
            containsSub m (canonStore b) = true) ∧
          ∃ w, w ∈ storeWords (canonStore a) ∧ w ∈ storeWords (canonStore b))) := by
    by_cases heq : canonStore a = canonStore b
    · simp [match_store_names, heq]
    · simp only [match_store_names]
      rw [if_neg heq]
      by_cases hmaj : MAJOR_STORES.any
          (fun m => containsSub m (canonStore a) || containsSub m (canonStore b)) = true
      · rw [if_pos hmaj]
        simp only [List.any_eq_true, Bool.or_eq_true] at hmaj
        constructor
        · intro hshare
          refine Or.inr ⟨hmaj, ?_⟩
          simp only [Bool.or_eq_true, List.any_eq_true] at hshare
          rcases hshare with ⟨w, hw, hmem⟩ | ⟨w, hw, hmem⟩
          · exact ⟨w, hw, (List.elem_iff).mp hmem⟩
          · exact ⟨w, (List.elem_iff).mp hmem, hw⟩
        · intro h
          rcases h with h | ⟨_, w, hwa, hwb⟩
          · exact absurd h heq
          · simp only [Bool.or_eq_true, List.any_eq_true]
            exact Or.inl ⟨w, hwa, (List.elem_iff).mpr hwb⟩
      · rw [if_neg hmaj]
        simp only [List.any_eq_true, Bool.or_eq_true] at hmaj
        constructor
        · intro h; cases h
        · intro h
          rcases h with h | ⟨hm, _⟩
          · exact absurd h heq
          · exact absurd hm hmaj
  refine ⟨hmain, ?_⟩
  intro hnone
  rw [hmain]
  constructor
  · intro h
    rcases h with h | ⟨⟨m, hm, hc⟩, _⟩
    · exact h
    · rcases hnone m hm with ⟨ha, hb⟩
      rcases hc with hc | hc
      · rw [ha] at hc; cases hc
      · rw [hb] at hc; cases hc
  · intro h; exact Or.inl h

/-- Witness for C9: the major-store clause evaluated at `Walmart` against
`Walmart Neighborhood Market`. -/
theorem C9_witness :
    match_store_names (("Walmart").toList) (("Walmart Neighborhood Market").toList) = true :=
  (C9_amended_store_matcher (("Walmart").toList)
    (("Walmart Neighborhood Market").toList)).1.mpr (by decide)

/-- Signal clamping is into the unit interval. -/
theorem normalize_component_bounds (x : Option ℚ) :
    0 ≤ normalize_component x 0 ∧ normalize_component x 0 ≤ 1 := by
  cases x with
  | none => simp [normalize_component]
  | some v =>
      constructor
      · exact le_max_left 0 _
      · exact max_le (by norm_num) (min_le_left 1 v)

/-- The weighted score is bounded by zero and the sum of the effective
weights. -/
theorem compute_final_score_bounds (f : Feat) (w : Weights)
    (h1 : 0 ≤ wTok w) (h2 : 0 ≤ wEmb w) (h3 : 0 ≤ wPart w) (h4 : 0 ≤ wBrand w) :
    0 ≤ compute_final_score f w ∧
      compute_final_score f w ≤ wTok w + wEmb w + wPart w + wBrand w := by
  have ht := normalize_component_bounds f.token_set
  have he := normalize_component_bounds f.embed
  have hp := normalize_component_bounds f.part
  have hb := normalize_component_bounds f.brand_match
  unfold compute_final_score
  constructor
  · have t1 := mul_nonneg h1 ht.1
    have t2 := mul_nonneg h2 he.1
    have t3 := mul_nonneg h3 hp.1
    have t4 := mul_nonneg h4 hb.1
    linarith
  · have t1 : wTok w * normalize_component f.token_set 0 ≤ wTok w :=
      mul_le_of_le_one_right h1 ht.2
    have t2 : wEmb w * normalize_component f.embed 0 ≤ wEmb w :=
      mul_le_of_le_one_right h2 he.2
    have t3 : wPart w * normalize_component f.part 0 ≤ wPart w :=
      mul_le_of_le_one_right h3 hp.2
    have t4 : wBrand w * normalize_component f.brand_match 0 ≤ wBrand w :=
      mul_le_of_le_one_right h4 hb.2
    linarith

/-- Claim C6: each signal is clamped to the unit interval before weighting, a
missing or NaN signal becomes the default zero, and the final score lies in
zero to the sum of the effective weights; with the default weights it lies in
the unit interval. -/
theorem C6_score_bounds (f : Feat) (w : Weights)
    (h1 : 0 ≤ wTok w) (h2 : 0 ≤ wEmb w) (h3 : 0 ≤ wPart w) (h4 : 0 ≤ wBrand w) :
    (∀ x : Option ℚ, 0 ≤ normalize_component x 0 ∧ normalize_component x 0 ≤ 1) ∧
    normalize_component none 0 = 0 ∧
    (0 ≤ compute_final_score f w ∧
      compute_final_score f w ≤ wTok w + wEmb w + wPart w + wBrand w) ∧
    (0 ≤ compute_final_score f default_weights ∧
      compute_final_score f default_weights ≤ 1) := by
  refine ⟨normalize_component_bounds, rfl, compute_final_score_bounds f w h1 h2 h3 h4, ?_⟩
  have hd := compute_final_score_bounds f default_weights
    (by norm_num [wTok, default_weights]) (by norm_num [wEmb, default_weights])
    (by norm_num [wPart, default_weights]) (by norm_num [wBrand, default_weights])
  refine ⟨hd.1, ?_⟩
  have hsum : wTok default_weights + wEmb default_weights + wPart default_weights +
      wBrand default_weights = 1 := by
    norm_num [wTok, wEmb, wPart, wBrand, default_weights]
  rw [hsum] at hd
  exact hd.2

/-- Empty feature record used as a concrete witness input. -/
def featZero : Feat :=
  { candidate := { title := [], extractedPrice := none, source := [] },
    title_norm := [], token_set := none, part := none, embed := none, price := none,
    liters := none, price_per_liter := none, brand_match := none, score := 0 }

/-- Witness for C6: the default-weight bound at a concrete feature record. -/
theorem C6_witness : compute_final_score featZero default_weights ≤ 1 :=
  (C6_score_bounds featZero default_weights
    (by norm_num [wTok, default_weights]) (by norm_num [wEmb, default_weights])
    (by norm_num [wPart, default_weights])
    (by norm_num [wBrand, default_weights])).2.2.2.2

/-- Claim C7: the endpoint rejects an all-whitespace query and an empty
candidate list before any scoring — the selector is never consulted — but
the blanket `except Exception` converts the 400 `HTTPException` into a 500
internal-server-error response, for every signal implementation and request
configuration. -/
theorem C7_validation_reported_as_500 (sig : Signals) (p : Product) (ps : List Product)
    (w : Weights) (ct td : ℚ) :
    match_products sig ⟨[' '], p :: ps, w, ct, td⟩ =
      Except.error (PyErr.http 500 (("Query cannot be empty").toList)) ∧
    match_products sig ⟨strMilk, [], w, ct, td⟩ =
      Except.error (PyErr.http 500 (("HasData results cannot be empty").toList)) := by
  constructor <;> rfl

/-- Spec-side reading of the classifier: the eight rules as an ordered list,
the first rule that fires deciding the verdict (the last rule always fires). -/
def isGeneral_rules (query : List Char) : Bool :=
  let query_lower := pyStrip (lowerStr query)
  let query_words := splitWs query_lower
  (firstSome
    [if query_words.length < 1 then some true else none,
     if specificPatterns.any (fun p => reSearch p query_lower) then some false else none,
     if query_words.length = 1 then some true else none,
     if (query_words.filter isMeaningfulWord).length ≤ 2 then some true else none,
     if basicCategoryTerms.any (fun t => containsSub t query_lower) &&
        query_words.length ≤ 3 then some true else none,
     if query_lower.any isDigitChar then some false else none,
     if query_words.any (fun w => descriptiveWords.contains w) then some false else none,
     some (decide (query_words.length ≤ 3))]).getD false

/-- Claim C4: the classifier decides by the first matching rule of the eight
rules in source order, and the query `milk` is classified general. -/
theorem C4_query_classifier :
    (∀ q, is_general_query q = isGeneral_rules q) ∧
    is_general_query strMilk = true := by
  constructor
  · intro q
    simp only [is_general_query, isGeneral_rules]
    by_cases h1 : (splitWs (pyStrip (lowerStr q))).length < 1
    · simp [h1, firstSome]
    · simp only [h1, if_false]
      by_cases h2 : specificPatterns.any (fun p => reSearch p (pyStrip (lowerStr q))) = true
      · simp [h2, firstSome]
      · simp only [h2, if_false]
        by_cases h3 : (splitWs (pyStrip (lowerStr q))).length = 1
        · simp [h1, h2, h3, firstSome]
        · simp only [h3, if_false]
          by_cases h4 : ((splitWs (pyStrip (lowerStr q))).filter isMeaningfulWord).length ≤ 2
          · simp [h1, h2, h3, h4, firstSome]
          · simp only [h4, if_false]
            by_cases h5 : (basicCategoryTerms.any
                (fun t => containsSub t (pyStrip (lowerStr q))) &&
                decide ((splitWs (pyStrip (lowerStr q))).length ≤ 3)) = true
            · simp [h1, h2, h3, h4, h5, firstSome]
            · simp only [h5, if_false]
              by_cases h6 : (pyStrip (lowerStr q)).any isDigitChar = true
              · simp [h1, h2, h3, h4, h5, h6, firstSome]
              · simp only [h6, if_false]
                by_cases h7 : ∃ x ∈ splitWs (pyStrip (lowerStr q)), x ∈ descriptiveWords
                · simp [h7, firstSome]
                · simp [h7, firstSome]
  · decide

/-- Totality of the general-path sort key comparison. -/
theorem cheapLe_total : ∀ a b : Product × ℤ, cheapLe a b = true ∨ cheapLe b a = true := by
  intro a b
  simp only [cheapLe, decide_eq_true_eq]
  rcases lt_trichotomy (a.1.extractedPrice.getD 999) (b.1.extractedPrice.getD 999) with h | h | h
  · exact Or.inl (Or.inl h)
  · rcases le_total b.2 a.2 with h2 | h2
    · exact Or.inl (Or.inr ⟨h, h2⟩)
    · exact Or.inr (Or.inr ⟨h.symm, h2⟩)
  · exact Or.inr (Or.inl h)

/-- Transitivity of the general-path sort key comparison. -/
theorem cheapLe_trans : ∀ a b c : Product × ℤ,
    cheapLe a b = true → cheapLe b c = true → cheapLe a c = true := by
  intro a b c hab hbc
  simp only [cheapLe, decide_eq_true_eq] at hab hbc ⊢
  rcases hab with h1 | ⟨h1, h1'⟩
  · rcases hbc with h2 | ⟨h2, _⟩
    · exact Or.inl (lt_trans h1 h2)
    · exact Or.inl (h2 ▸ h1)
  · rcases hbc with h2 | ⟨h2, h2'⟩
    · exact Or.inl (h1 ▸ h2)
    · exact Or.inr ⟨h1.trans h2, le_trans h2' h1'⟩

/-- Specification of a defined `find_cheapest_relevant_product` result: a
member of the input list with positive relevance, minimal for the
price-then-relevance key among all positive-relevance members. -/
theorem find_cheapest_spec (q : List Char) (ps : List Product) (c : Product)
    (hc : find_cheapest_relevant_product q ps = some c) :
    c ∈ ps ∧ 0 < relevanceOf q c ∧
      ∀ d ∈ ps, 0 < relevanceOf q d →
        (c.extractedPrice.getD 999 < d.extractedPrice.getD 999 ∨
          (c.extractedPrice.getD 999 = d.extractedPrice.getD 999 ∧
            relevanceOf q d ≤ relevanceOf q c)) := by
  simp only [find_cheapest_relevant_product] at hc
  set ql := pyStrip (lowerStr q) with hql
  set qw := (splitWs ql).dedup with hqw
  set relevant := ps.filterMap (fun p =>
    let s := relevance_score ql qw p
    if 0 < s then some (p, s) else none) with hrel
  rcases hsort : sortLe cheapLe relevant with _ | ⟨best, rest⟩
  · rw [hsort] at hc; cases hc
  · rw [hsort] at hc
    simp only [Option.some.injEq] at hc
    have hbestmem : best ∈ sortLe cheapLe relevant := by
      rw [hsort]; exact List.mem_cons_self best rest
    have hbestrel : best ∈ relevant := (mem_sortLe cheapLe best relevant).mp hbestmem
    rcases List.mem_filterMap.mp hbestrel with ⟨p, hp, hfp⟩
    simp only at hfp
    by_cases hpos : 0 < relevance_score ql qw p
    · rw [if_pos hpos] at hfp
      injection hfp with hpb
      have hbfst : best.1 = p := by rw [← hpb]
      have hbsnd : best.2 = relevance_score ql qw p := by rw [← hpb]
      have hcp : c = p := by rw [← hc, hbfst]
      have hrelc : relevanceOf q c = relevance_score ql qw c := rfl
      refine ⟨hcp ▸ hp, ?_, ?_⟩
      · rw [hrelc, hcp]; exact hpos
      · intro d hd hdpos
        have hdpos2 : 0 < relevance_score ql qw d := hdpos
        have hdpair : (d, relevance_score ql qw d) ∈ relevant := by
          apply List.mem_filterMap.mpr
          refine ⟨d, hd, ?_⟩
          simp only
          rw [if_pos hdpos2]
        have hdmem : (d, relevance_score ql qw d) ∈ sortLe cheapLe relevant :=
          (mem_sortLe cheapLe _ relevant).mpr hdpair
        rw [hsort] at hdmem
        rcases List.mem_cons.mp hdmem with heq | hmem
        · have : d = best.1 := by rw [← heq]
          rw [this, ← hc]
          exact Or.inr ⟨rfl, le_refl _⟩
        · have hpair := pairwise_sortLe cheapLe cheapLe_total cheapLe_trans relevant
          rw [hsort] at hpair
          rcases List.pairwise_cons.mp hpair with ⟨hhead, _⟩
          have hle := hhead _ hmem
          simp only [cheapLe, decide_eq_true_eq] at hle
          have hbfst' : best.1 = c := hc ▸ rfl
          rw [hbfst', hbsnd] at hle
          have hrc : relevance_score ql qw p = relevanceOf q c := by rw [hcp]; rfl
          rcases hle with h | ⟨h, h'⟩
          · exact Or.inl h
          · exact Or.inr ⟨h, by rw [← hrc]; exact h'⟩
    · rw [if_neg hpos] at hfp; cases hfp

/-- Some positive-relevance member guarantees a defined result. -/
theorem find_cheapest_isSome (q : List Char) (ps : List Product)
    (h : ∃ p ∈ ps, 0 < relevanceOf q p) :
    ∃ c, find_cheapest_relevant_product q ps = some c := by
  simp only [find_cheapest_relevant_product]
  set ql := pyStrip (lowerStr q) with hql
  set qw := (splitWs ql).dedup with hqw
  set relevant := ps.filterMap (fun p =>
    let s := relevance_score ql qw p
    if 0 < s then some (p, s) else none) with hrel
  rcases h with ⟨p, hp, hpos⟩
  have hpos2 : 0 < relevance_score ql qw p := hpos
  have hmem : (p, relevance_score ql qw p) ∈ relevant := by
    apply List.mem_filterMap.mpr
    refine ⟨p, hp, ?_⟩
    simp only
    rw [if_pos hpos2]
  rcases hsort : sortLe cheapLe relevant with _ | ⟨best, rest⟩
  · have := (mem_sortLe cheapLe _ relevant).mpr hmem
    rw [hsort] at this
    cases this
  · exact ⟨best.1, rfl⟩

/-- No positive-relevance member means no result. -/
theorem find_cheapest_none (q : List Char) (ps : List Product)
    (h : ∀ p ∈ ps, ¬0 < relevanceOf q p) :
    find_cheapest_relevant_product q ps = none := by
  simp only [find_cheapest_relevant_product]
  have hrel : ps.filterMap (fun p =>
      let s := relevance_score (pyStrip (lowerStr q)) ((splitWs (pyStrip (lowerStr q))).dedup) p
      if 0 < s then some (p, s) else none) = [] := by
    rw [List.filterMap_eq_nil_iff]
    intro p hp
    simp only
    have h2 : ¬0 < relevance_score (pyStrip (lowerStr q))
        ((splitWs (pyStrip (lowerStr q))).dedup) p := h p hp
    rw [if_neg h2]
  rw [hrel]
  rfl

/-- Relevant candidate with a high price. -/
def prodMilk1000 : Product := { title := strMilk, extractedPrice := some 1000, source := [] }

/-- Relevant candidate without a price. -/
def prodMilkNoPrice : Product := { title := strMilk, extractedPrice := none, source := [] }

/-- Claim C5 (counterexample): both candidates have equal positive relevance
for the general query `milk`, only one has a price, yet the selector returns
the unpriced one, because a missing price sorts with the default key 999,
below the real price 1000. -/
theorem C5_counterexample :
    find_cheapest_relevant_product strMilk [prodMilk1000, prodMilkNoPrice] =
      some prodMilkNoPrice ∧
    prodMilkNoPrice.extractedPrice = none ∧
    prodMilk1000.extractedPrice = some 1000 ∧
    0 < relevanceOf strMilk prodMilk1000 ∧
    relevanceOf strMilk prodMilk1000 = relevanceOf strMilk prodMilkNoPrice := by
  refine ⟨by decide, rfl, rfl, by decide, by decide⟩

/-- Claim C5 (amended): on a general query, candidates with relevance not
above zero are never selected; when no candidate has positive relevance, the
result is the null selection with reason
`no_relevant_products_for_general_query`; otherwise the selected candidate is
a positive-relevance member minimal for ascending price — a missing price
counting as 999 — with ties broken by descending relevance, reported with
reason `general_query_cheapest` and score 0.95. -/
theorem C5_amended_general_selector (sig : Signals) (q : List Char) (ps : List Product)
    (w : Weights) (ct td : ℚ) (hg : is_general_query q = true) :
    ((∀ p ∈ ps, ¬0 < relevanceOf q p) →
      select_best_product sig q ps w ct td =
        some ⟨none, 0, false, Reason.no_relevant_products_for_general_query, []⟩) ∧
    ((∃ p ∈ ps, 0 < relevanceOf q p) →
      ∃ c, find_cheapest_relevant_product q ps = some c) ∧
    (∀ c, find_cheapest_relevant_product q ps = some c →
      c ∈ ps ∧ 0 < relevanceOf q c ∧
      (∀ d ∈ ps, 0 < relevanceOf q d →
        (c.extractedPrice.getD 999 < d.extractedPrice.getD 999 ∨
          (c.extractedPrice.getD 999 = d.extractedPrice.getD 999 ∧
            relevanceOf q d ≤ relevanceOf q c))) ∧
      select_best_product sig q ps w ct td =
        some ⟨some c, 95 / 100, true, Reason.general_query_cheapest,
          [general_candidate_feat c]⟩) := by
  refine ⟨?_, find_cheapest_isSome q ps, ?_⟩
  · intro h
    have hnone := find_cheapest_none q ps h
    simp only [select_best_product, hg, if_true, hnone]
  · intro c hc
    rcases find_cheapest_spec q ps c hc with ⟨hmem, hpos, hmin⟩
    refine ⟨hmem, hpos, hmin, ?_⟩
    simp only [select_best_product, hg, if_true, hc]

/-- Witness for C5: the general path evaluated at the query `milk` over one
candidate. -/
theorem C5_witness :
    select_best_product
        ⟨fun _ _ => 0, fun _ _ => 0, fun _ _ => 0, true, fun _ _ => []⟩
        strMilk [prodMilk1000] default_weights (55 / 100) (5 / 100) =
      some ⟨some prodMilk1000, 95 / 100, true, Reason.general_query_cheapest,
        [general_candidate_feat prodMilk1000]⟩ :=
  ((C5_amended_general_selector _ strMilk [prodMilk1000] default_weights (55 / 100) (5 / 100)
    (by decide)).2.2 prodMilk1000 (by decide)).2.2.2

/-- Irreflexivity of the price-per-liter comparison. -/
theorem pplLt_irr : ∀ a : Feat, pplLt a a = false := by
  intro a; simp [pplLt]

/-- Transitivity of the price-per-liter comparison. -/
theorem pplLt_trans : ∀ a b c : Feat,
    pplLt a b = true → pplLt b c = true → pplLt a c = true := by
  intro a b c hab hbc
  simp only [pplLt, decide_eq_true_eq] at hab hbc ⊢
  exact lt_trans hab hbc

/-- Co-transitivity of the price-per-liter comparison. -/
theorem pplLt_co : ∀ a b c : Feat,
    pplLt a c = true → pplLt a b = true ∨ pplLt b c = true := by
  intro a b c hac
  simp only [pplLt, decide_eq_true_eq] at hac ⊢
  rcases lt_or_le (a.price_per_liter.getD 0) (b.price_per_liter.getD 0) with h | h
  · exact Or.inl h
  · exact Or.inr (lt_of_le_of_lt h hac)

/-- Irreflexivity of the absolute-price comparison. -/
theorem priceLt_irr : ∀ a : Feat, priceLt a a = false := by
  intro a; simp [priceLt]

/-- Transitivity of the absolute-price comparison. -/
theorem priceLt_trans : ∀ a b c : Feat,
    priceLt a b = true → priceLt b c = true → priceLt a c = true := by
  intro a b c hab hbc
  simp only [priceLt, decide_eq_true_eq] at hab hbc ⊢
  exact lt_trans hab hbc

/-- Co-transitivity of the absolute-price comparison. -/
theorem priceLt_co : ∀ a b c : Feat,
    priceLt a c = true → priceLt a b = true ∨ priceLt b c = true := by
  intro a b c hac
  simp only [priceLt, decide_eq_true_eq] at hac ⊢
  rcases lt_or_le (a.price.getD 0) (b.price.getD 0) with h | h
  · exact Or.inl h
  · exact Or.inr (lt_of_le_of_lt h hac)

/-- Singleton near-top set: the sole member is selected as `top_single`. -/
theorem tie_break_top_single (feats : List Feat) (ct td : ℚ) (f : Feat)
    (hnear : nearTop feats td = [f]) (t : Feat) (rest : List Feat)
    (hs : sortedFeats feats = t :: rest) :
    tie_break_select feats ct td =
      some ⟨some f.candidate, f.score, decide (ct ≤ f.score), Reason.top_single,
        sortedFeats feats⟩ := by
  simp only [tie_break_select]
  rw [hs]
  simp only [hnear, List.length_cons, List.length_nil, List.head?_cons, Option.map_some']
  norm_num

/-- Near-top set with several members and a defined price-per-liter: the
first minimal-price-per-liter member is selected. -/
theorem tie_break_ppl (feats : List Feat) (ct td : ℚ) (t : Feat) (rest : List Feat)
    (hs : sortedFeats feats = t :: rest)
    (hlen : 1 < (nearTop feats td).length)
    (hex : ∃ g ∈ nearTop feats td, g.price_per_liter.isSome = true) :
    ∃ m ∈ nearTop feats td, m.price_per_liter.isSome = true ∧
      (∀ g ∈ nearTop feats td, g.price_per_liter.isSome = true →
        m.price_per_liter.getD 0 ≤ g.price_per_liter.getD 0) ∧
      tie_break_select feats ct td =
        some ⟨some m.candidate, m.score, decide (ct ≤ m.score),
          Reason.tie_broken_by_price_per_liter, sortedFeats feats⟩ := by
  rcases hex with ⟨g, hg, hgs⟩
  have hwne : (nearTop feats td).filter (fun f => f.price_per_liter.isSome) ≠ [] := by
    intro hnil
    have : g ∈ (nearTop feats td).filter (fun f => f.price_per_liter.isSome) :=
      List.mem_filter.mpr ⟨hg, hgs⟩
    rw [hnil] at this
    cases this
  rcases minByLt_isSome pplLt _ hwne with ⟨m, hm⟩
  rcases minByLt_spec pplLt pplLt_irr pplLt_trans pplLt_co _ m hm with ⟨hmmem, hmmin⟩
  rcases List.mem_filter.mp hmmem with ⟨hmnear, hms⟩
  refine ⟨m, hmnear, hms, ?_, ?_⟩
  · intro g2 hg2 hg2s
    have := hmmin g2 (List.mem_filter.mpr ⟨hg2, hg2s⟩)
    simp only [pplLt, decide_eq_false_iff_not, not_lt] at this
    exact this
  · simp only [tie_break_select]
    rw [hs]
    rw [if_pos hlen]
    have hwe : ((nearTop feats td).filter (fun f => f.price_per_liter.isSome)).isEmpty =
        false := by
      rw [List.isEmpty_eq_false]
      exact hwne
    simp only [hwe, Bool.not_false, if_true, hm, Option.map_some']

/-- Near-top set with several members, no price-per-liter but a defined
price: the first minimal-price member is selected. -/
theorem tie_break_abs_price (feats : List Feat) (ct td : ℚ) (t : Feat) (rest : List Feat)
    (hs : sortedFeats feats = t :: rest)
    (hlen : 1 < (nearTop feats td).length)
    (hnoppl : ∀ g ∈ nearTop feats td, g.price_per_liter = none)
    (hex : ∃ g ∈ nearTop feats td, g.price.isSome = true) :
    ∃ m ∈ nearTop feats td, m.price.isSome = true ∧
      (∀ g ∈ nearTop feats td, g.price.isSome = true →
        m.price.getD 0 ≤ g.price.getD 0) ∧
      tie_break_select feats ct td =
        some ⟨some m.candidate, m.score, decide (ct ≤ m.score),
          Reason.tie_broken_by_abs_price, sortedFeats feats⟩ := by
  rcases hex with ⟨g, hg, hgs⟩
  have hwem : (nearTop feats td).filter (fun f => f.price_per_liter.isSome) = [] := by
    rw [List.filter_eq_nil_iff]
    intro g2 hg2
    rw [hnoppl g2 hg2]
    simp
  have hpne : (nearTop feats td).filter (fun f => f.price.isSome) ≠ [] := by
    intro hnil
    have : g ∈ (nearTop feats td).filter (fun f => f.price.isSome) :=
      List.mem_filter.mpr ⟨hg, hgs⟩
    rw [hnil] at this
    cases this
  rcases minByLt_isSome priceLt _ hpne with ⟨m, hm⟩
  rcases minByLt_spec priceLt priceLt_irr priceLt_trans priceLt_co _ m hm with ⟨hmmem, hmmin⟩
  rcases List.mem_filter.mp hmmem with ⟨hmnear, hms⟩
  refine ⟨m, hmnear, hms, ?_, ?_⟩
  · intro g2 hg2 hg2s
    have := hmmin g2 (List.mem_filter.mpr ⟨hg2, hg2s⟩)
    simp only [priceLt, decide_eq_false_iff_not, not_lt] at this
    exact this
  · simp only [tie_break_select]
    rw [hs]
    rw [if_pos hlen]
    have hpe : ((nearTop feats td).filter (fun f => f.price.isSome)).isEmpty = false := by
      rw [List.isEmpty_eq_false]
      exact hpne
    simp only [hwem, List.isEmpty_nil, Bool.not_true, hpe, Bool.not_false, hm,
      Option.map_some']
    norm_num

/-- Near-top set with several members and no prices at all: the top-ranked
member is kept. -/
theorem tie_break_kept_top (feats : List Feat) (ct td : ℚ) (t : Feat) (rest : List Feat)
    (hs : sortedFeats feats = t :: rest) (hδ : 0 ≤ td)
    (hlen : 1 < (nearTop feats td).length)
    (hnoppl : ∀ g ∈ nearTop feats td, g.price_per_liter = none)
    (hnopr : ∀ g ∈ nearTop feats td, g.price = none) :
    tie_break_select feats ct td =
      some ⟨some t.candidate, t.score, decide (ct ≤ t.score), Reason.tie_kept_top,
        sortedFeats feats⟩ ∧ t.score = topScoreOf feats := by
  have hwem : (nearTop feats td).filter (fun f => f.price_per_liter.isSome) = [] := by
    rw [List.filter_eq_nil_iff]
    intro g2 hg2
    rw [hnoppl g2 hg2]
    simp
  have hpem : (nearTop feats td).filter (fun f => f.price.isSome) = [] := by
    rw [List.filter_eq_nil_iff]
    intro g2 hg2
    rw [hnopr g2 hg2]
    simp
  have hcons := nearTop_cons feats td hδ t rest hs
  constructor
  · simp only [tie_break_select]
    rw [hs]
    rw [if_pos hlen]
    simp only [hwem, hpem, List.isEmpty_nil, Bool.not_true]
    rw [hcons]
    simp only [List.head?_cons, Option.map_some']
    norm_num
  · unfold topScoreOf
    rw [hs]

/-- The tie-break stage always returns a result when the sorted list is
nonempty and the delta is nonnegative. -/
theorem tie_break_isSome (feats : List Feat) (ct td : ℚ) (hδ : 0 ≤ td)
    (t : Feat) (rest : List Feat) (hs : sortedFeats feats = t :: rest) :
    ∃ res, tie_break_select feats ct td = some res := by
  have hcons := nearTop_cons feats td hδ t rest hs
  simp only [tie_break_select]
  rw [hs]
  by_cases hlen : 1 < (nearTop feats td).length
  · rw [if_pos hlen]
    by_cases hw : ((nearTop feats td).filter (fun f => f.price_per_liter.isSome)).isEmpty = true
    · simp only [hw, Bool.not_true]
      by_cases hp : ((nearTop feats td).filter (fun f => f.price.isSome)).isEmpty = true
      · simp only [hp, Bool.not_true]
        rw [hcons]
        simp only [List.head?_cons, Option.map_some']
        exact ⟨_, rfl⟩
      · have hpf : ((nearTop feats td).filter (fun f => f.price.isSome)).isEmpty = false := by
          cases hb : ((nearTop feats td).filter (fun f => f.price.isSome)).isEmpty with
          | false => rfl
          | true => exact absurd hb hp
        have hpne : (nearTop feats td).filter (fun f => f.price.isSome) ≠ [] := by
          rw [← List.isEmpty_eq_false]
          exact hpf
        rcases minByLt_isSome priceLt _ hpne with ⟨m, hm⟩
        simp only [hpf, Bool.not_false, hm, Option.map_some']
        exact ⟨_, rfl⟩
    · have hwf : ((nearTop feats td).filter
          (fun f => f.price_per_liter.isSome)).isEmpty = false := by
        cases hb : ((nearTop feats td).filter (fun f => f.price_per_liter.isSome)).isEmpty with
        | false => rfl
        | true => exact absurd hb hw
      have hwne : (nearTop feats td).filter (fun f => f.price_per_liter.isSome) ≠ [] := by
        rw [← List.isEmpty_eq_false]
        exact hwf
      rcases minByLt_isSome pplLt _ hwne with ⟨m, hm⟩
      simp only [hwf, Bool.not_false, hm, Option.map_some']
      exact ⟨_, rfl⟩
  · rw [if_neg hlen]
    rw [hcons]
    simp only [List.head?_cons, Option.map_some']
    exact ⟨_, rfl⟩

/-- Claim C2: for a nonempty scored list and nonnegative delta, the near-top
set is exactly the members within delta of the top score; a singleton
near-top set is selected as `top_single`; otherwise the minimal defined
price-per-liter member is selected as `tie_broken_by_price_per_liter`, else
the minimal defined absolute price as `tie_broken_by_abs_price`, else the
top-ranked member as `tie_kept_top`; and for two equal-score candidates with
defined, differing price-per-liter, the lower one is always selected. -/
theorem C2_tie_breaking (feats : List Feat) (ct td : ℚ) (hne : feats ≠ [])
    (hδ : 0 ≤ td) :
    (∃ res, tie_break_select feats ct td = some res) ∧
    (∀ f, f ∈ nearTop feats td ↔ f ∈ feats ∧ topScoreOf feats - f.score ≤ td) ∧
    (∀ f, nearTop feats td = [f] →
      tie_break_select feats ct td = some ⟨some f.candidate, f.score,
        decide (ct ≤ f.score), Reason.top_single, sortedFeats feats⟩) ∧
    (1 < (nearTop feats td).length →
      (∃ g ∈ nearTop feats td, g.price_per_liter.isSome = true) →
      ∃ m : Feat, m ∈ nearTop feats td ∧ m.price_per_liter.isSome = true ∧
        (∀ g ∈ nearTop feats td, g.price_per_liter.isSome = true →
          m.price_per_liter.getD 0 ≤ g.price_per_liter.getD 0) ∧
        tie_break_select feats ct td = some ⟨some m.candidate, m.score,
          decide (ct ≤ m.score), Reason.tie_broken_by_price_per_liter,
          sortedFeats feats⟩) ∧
    (1 < (nearTop feats td).length →
      (∀ g ∈ nearTop feats td, g.price_per_liter = none) →
      (∃ g ∈ nearTop feats td, g.price.isSome = true) →
      ∃ m : Feat, m ∈ nearTop feats td ∧ m.price.isSome = true ∧
        (∀ g ∈ nearTop feats td, g.price.isSome = true →
          m.price.getD 0 ≤ g.price.getD 0) ∧
        tie_break_select feats ct td = some ⟨some m.candidate, m.score,
          decide (ct ≤ m.score), Reason.tie_broken_by_abs_price, sortedFeats feats⟩) ∧
    (1 < (nearTop feats td).length →
      (∀ g ∈ nearTop feats td, g.price_per_liter = none) →
      (∀ g ∈ nearTop feats td, g.price = none) →
      ∃ m : Feat, m.score = topScoreOf feats ∧
        tie_break_select feats ct td = some ⟨some m.candidate, m.score,
          decide (ct ≤ m.score), Reason.tie_kept_top, sortedFeats feats⟩) ∧
    (∀ a b : Feat, ∀ x y : ℚ, a.score = b.score → a.price_per_liter = some x →
      b.price_per_liter = some y →
      ((x < y → ∃ res, tie_break_select [a, b] ct td = some res ∧
          res.selected = some a.candidate ∧
          res.reason = Reason.tie_broken_by_price_per_liter) ∧
       (y < x → ∃ res, tie_break_select [a, b] ct td = some res ∧
          res.selected = some b.candidate ∧
          res.reason = Reason.tie_broken_by_price_per_liter))) := by
  obtain ⟨t, rest, hsc⟩ : ∃ t rest, sortedFeats feats = t :: rest := by
    cases h : sortedFeats feats with
    | nil => exact absurd ((sortLe_eq_nil_iff scoreGe feats).mp h) hne
    | cons t rest => exact ⟨t, rest, rfl⟩
  refine ⟨tie_break_isSome feats ct td hδ t rest hsc, mem_nearTop feats td, ?_, ?_, ?_, ?_, ?_⟩
  · intro f hnear
    exact tie_break_top_single feats ct td f hnear t rest hsc
  · intro hlen hex
    exact tie_break_ppl feats ct td t rest hsc hlen hex
  · intro hlen hnoppl hex
    exact tie_break_abs_price feats ct td t rest hsc hlen hnoppl hex
  · intro hlen hnoppl hnopr
    rcases tie_break_kept_top feats ct td t rest hsc hδ hlen hnoppl hnopr with ⟨heval, hts⟩
    exact ⟨t, hts, heval⟩
  · intro a b x y hsab ha hb
    have hab : sortedFeats [a, b] = [a, b] := by
      simp [sortedFeats, sortLe, insertLe, scoreGe, hsab]
    have htop : topScoreOf [a, b] = a.score := by
      unfold topScoreOf
      rw [hab]
    have hcons := nearTop_cons [a, b] td hδ a [b] hab
    have hfb : decide (topScoreOf [a, b] - b.score ≤ td) = true := by
      rw [htop, hsab]
      simpa using hδ
    have hnear : nearTop [a, b] td = [a, b] := by
      rw [hcons, List.filter_cons, hfb]
      simp
    have hlen : 1 < (nearTop [a, b] td).length := by
      rw [hnear]
      norm_num
    have hmemb : b ∈ nearTop [a, b] td := by
      rw [hnear]
      exact List.mem_cons_of_mem a (List.mem_cons_self b [])
    have hmema : a ∈ nearTop [a, b] td := by
      rw [hnear]
      exact List.mem_cons_self a [b]
    have hex : ∃ g ∈ nearTop [a, b] td, g.price_per_liter.isSome = true :=
      ⟨a, hmema, by rw [ha]; rfl⟩
    rcases tie_break_ppl [a, b] ct td a [b] hab hlen hex with
      ⟨m, hmnear, hms, hmmin, heval⟩
    have hmab : m = a ∨ m = b := by
      rw [hnear] at hmnear
      rcases List.mem_cons.mp hmnear with h | h
      · exact Or.inl h
      · rcases List.mem_cons.mp h with h2 | h2
        · exact Or.inr h2
        · cases h2
    constructor
    · intro hxy
      have hma : m = a := by
        rcases hmab with h | h
        · exact h
        · exfalso
          have := hmmin a hmema (by rw [ha]; rfl)
          rw [h, ha, hb] at this
          simp only [Option.getD_some] at this
          exact absurd hxy (not_lt.mpr this)
      rw [hma] at heval
      exact ⟨_, heval, rfl, rfl⟩
    · intro hyx
      have hmb : m = b := by
        rcases hmab with h | h
        · exfalso
          have := hmmin b hmemb (by rw [hb]; rfl)
          rw [h, ha, hb] at this
          simp only [Option.getD_some] at this
          exact absurd hyx (not_lt.mpr this)
        · exact h
      rw [hmb] at heval
      exact ⟨_, heval, rfl, rfl⟩

/-- Witness for C2: the tie-break theorem instantiated on a concrete
one-element feature list with delta 1. -/
theorem C2_witness :
    ([featZero] ≠ ([] : List Feat)) ∧ ((0 : ℚ) ≤ 1) ∧
    ∃ res, tie_break_select [featZero] 0 1 = some res :=
  ⟨by simp, by norm_num, (C2_tie_breaking [featZero] 0 1 (by simp) (by norm_num)).1⟩

/-- A `pyOr` value comes from one of its two arms. -/
theorem pyOr_eq_some {α : Type} (o rest : Option α) (p : α)
    (h : pyOr o rest = some p) : o = some p ∨ rest = some p := by
  cases o with
  | none => exact Or.inr h
  | some a => exact Or.inl h

/-- The first-minimal fold only returns members of its input. -/
theorem minByLt_mem {α : Type} (lt : α → α → Bool) (l : List α) (m : α)
    (hm : minByLt lt l = some m) : m ∈ l := by
  cases l with
  | nil => simp [minByLt] at hm
  | cons h t =>
      simp only [minByLt, Option.some.injEq] at hm
      subst hm
      exact foldlMin_mem lt t h

/-- TF-IDF substitution over an exhausted similarity list is the identity. -/
theorem applyTfidf_nil_sims (feats : List Feat) : applyTfidf feats [] = feats := by
  simp [applyTfidf]

/-- Unfolding equation of the TF-IDF substitution on two cons cells. -/
theorem applyTfidf_cons (g : Feat) (l : List Feat) (s : ℚ) (ss : List ℚ) :
    applyTfidf (g :: l) (s :: ss) = { g with embed := some s } :: applyTfidf l ss := by
  simp [applyTfidf]

/-- The TF-IDF substitution preserves the underlying candidates. -/
theorem applyTfidf_mem (feats : List Feat) (sims : List ℚ) (f : Feat)
    (hf : f ∈ applyTfidf feats sims) : ∃ g ∈ feats, f.candidate = g.candidate := by
  induction feats generalizing sims with
  | nil => simp [applyTfidf] at hf
  | cons g l ih =>
      cases sims with
      | nil =>
          rw [applyTfidf_nil_sims] at hf
          exact ⟨f, hf, rfl⟩
      | cons s ss =>
          rw [applyTfidf_cons] at hf
          rcases List.mem_cons.mp hf with h | h
          · exact ⟨g, List.mem_cons_self g l, by rw [h]⟩
          · rcases ih ss h with ⟨g2, hg2, hc⟩
            exact ⟨g2, List.mem_cons_of_mem g hg2, hc⟩

/-- Every run of the tie-break stage either crashes or selects a member of
the near-top set, reporting the sorted list as `all_candidates`. -/
theorem tie_break_cases (feats : List Feat) (ct td : ℚ) (t : Feat)
    (rest : List Feat) (hs : sortedFeats feats = t :: rest) :
    tie_break_select feats ct td = none ∨
    ∃ f r, f ∈ nearTop feats td ∧
      tie_break_select feats ct td =
        some ⟨some f.candidate, f.score, decide (ct ≤ f.score), r, t :: rest⟩ := by
  simp only [tie_break_select]
  rw [hs]
  by_cases hlen : 1 < (nearTop feats td).length
  · rw [if_pos hlen]
    by_cases hw : ((nearTop feats td).filter (fun f => f.price_per_liter.isSome)).isEmpty = true
    · simp only [hw, Bool.not_true]
      by_cases hp : ((nearTop feats td).filter (fun f => f.price.isSome)).isEmpty = true
      · simp only [hp, Bool.not_true]
        cases hh : (nearTop feats td).head? with
        | none =>
            simp only [hh, Option.map_none']
            exact Or.inl rfl
        | some f =>
            simp only [hh, Option.map_some']
            exact Or.inr ⟨f, Reason.tie_kept_top,
              List.mem_of_mem_head? (Option.mem_def.mpr hh), rfl⟩
      · have hpf : ((nearTop feats td).filter (fun f => f.price.isSome)).isEmpty = false := by
          cases hb : ((nearTop feats td).filter (fun f => f.price.isSome)).isEmpty with
          | false => rfl
          | true => exact absurd hb hp
        have hpne : (nearTop feats td).filter (fun f => f.price.isSome) ≠ [] := by
          rw [← List.isEmpty_eq_false]
          exact hpf
        rcases minByLt_isSome priceLt _ hpne with ⟨m, hm⟩
        have hmem : m ∈ nearTop feats td :=
          (List.mem_filter.mp (minByLt_mem priceLt _ m hm)).1
        simp only [hpf, Bool.not_false, hm, Option.map_some']
        exact Or.inr ⟨m, Reason.tie_broken_by_abs_price, hmem, rfl⟩
    · have hwf : ((nearTop feats td).filter
          (fun f => f.price_per_liter.isSome)).isEmpty = false := by
        cases hb : ((nearTop feats td).filter (fun f => f.price_per_liter.isSome)).isEmpty with
        | false => rfl
        | true => exact absurd hb hw
      have hwne : (nearTop feats td).filter (fun f => f.price_per_liter.isSome) ≠ [] := by
        rw [← List.isEmpty_eq_false]
        exact hwf
      rcases minByLt_isSome pplLt _ hwne with ⟨m, hm⟩
      have hmem : m ∈ nearTop feats td :=
        (List.mem_filter.mp (minByLt_mem pplLt _ m hm)).1
      simp only [hwf, Bool.not_false, hm, Option.map_some']
      exact Or.inr ⟨m, Reason.tie_broken_by_price_per_liter, hmem, rfl⟩
  · rw [if_neg hlen]
    cases hh : (nearTop feats td).head? with
    | none =>
        simp only [hh, Option.map_none']
        exact Or.inl trivial
    | some f =>
        simp only [hh, Option.map_some']
        exact Or.inr ⟨f, Reason.top_single,
          List.mem_of_mem_head? (Option.mem_def.mpr hh), rfl⟩

/-- A non-`none` selection out of the tie-break stage is the candidate of
some member of the scored list. -/
theorem tie_break_selected_mem (feats : List Feat) (ct td : ℚ) (res : SelectResult)
    (c : Product) (hres : tie_break_select feats ct td = some res)
    (hsel : res.selected = some c) : ∃ f, f ∈ feats ∧ f.candidate = c := by
  rcases hs : sortedFeats feats with _ | ⟨t, rest⟩
  · have hnil : tie_break_select feats ct td =
        some ⟨none, 0, false, Reason.no_candidates, []⟩ := by
      simp only [tie_break_select]
      rw [hs]
    rw [hnil] at hres
    simp only [Option.some.injEq] at hres
    rw [← hres] at hsel
    simp at hsel
  · rcases tie_break_cases feats ct td t rest hs with h | ⟨f, r, hmem, heq⟩
    · rw [h] at hres
      cases hres
    · rw [heq] at hres
      simp only [Option.some.injEq] at hres
      rw [← hres] at hsel
      simp only [Option.some.injEq] at hsel
      exact ⟨f, (mem_sortLe scoreGe f feats).mp (List.mem_filter.mp hmem).1, hsel⟩

/-- Claim C10: the priority selector, the cheapest-relevant selector and the
best-product selector never fabricate a candidate: any non-null product they
return is an element of the candidate list passed in. -/
theorem C10_selection_membership :
    (∀ (sp : List Product) (item brand : Option (List Char)) (ql : Option ℚ)
       (p : Product),
       select_by_priority_conditions sp item brand ql = some p → p ∈ sp) ∧
    (∀ (q : List Char) (ps : List Product) (c : Product),
       find_cheapest_relevant_product q ps = some c → c ∈ ps) ∧
    (∀ (sig : Signals) (q : List Char) (hres : List Product) (w : Weights)
       (ct td : ℚ) (res : SelectResult) (c : Product),
       select_best_product sig q hres w ct td = some res →
       res.selected = some c → c ∈ hres) := by
  refine ⟨?_, ?_, ?_⟩
  · intro sp item brand ql p h
    have hfilter : ∀ (f : Product → Bool),
        pick_lowest_price (sp.filter f) = some p → p ∈ sp := by
      intro f hf
      exact (List.mem_filter.mp (pick_lowest_price_spec _ p hf).1).1
    have hall : pick_lowest_price sp = some p → p ∈ sp := fun hf =>
      (pick_lowest_price_spec _ p hf).1
    unfold select_by_priority_conditions at h
    simp only [] at h
    split_ifs at h with h1 h2 h3 h4
    · rcases pyOr_eq_some _ _ _ h with h | h
      · exact hfilter _ h
      rcases pyOr_eq_some _ _ _ h with h | h
      · exact hfilter _ h
      rcases pyOr_eq_some _ _ _ h with h | h
      · exact hfilter _ h
      rcases pyOr_eq_some _ _ _ h with h | h
      · exact hfilter _ h
      exact hall h
    · rcases pyOr_eq_some _ _ _ h with h | h
      · exact hfilter _ h
      rcases pyOr_eq_some _ _ _ h with h | h
      · exact hfilter _ h
      exact hall h
    · rcases pyOr_eq_some _ _ _ h with h | h
      · exact hfilter _ h
      rcases pyOr_eq_some _ _ _ h with h | h
      · exact hfilter _ h
      exact hall h
    · rcases pyOr_eq_some _ _ _ h with h | h
      · exact hfilter _ h
      exact hall h
  · intro q ps c h
    exact (find_cheapest_spec q ps c h).1
  · intro sig q hres w ct td res c h hsel
    unfold select_best_product at h
    by_cases hg : is_general_query q = true
    · rw [if_pos hg] at h
      rcases hfc : find_cheapest_relevant_product q hres with _ | c0
      · rw [hfc] at h
        simp only [Option.some.injEq] at h
        rw [← h] at hsel
        simp at hsel
      · rw [hfc] at h
        simp only [Option.some.injEq] at h
        rw [← h] at hsel
        simp only [Option.some.injEq] at hsel
        rw [← hsel]
        exact (find_cheapest_spec q hres c0 hfc).1
    · rw [if_neg hg] at h
      have h2 : tie_break_select
          ((if sig.use_embeddings then hres.map (compute_features_for_candidate sig q)
            else applyTfidf (hres.map (compute_features_for_candidate sig q))
              (sig.tfidf_fn (normalize_text q)
                ((hres.map (compute_features_for_candidate sig q)).map Feat.title_norm))).map
            (fun f => { f with score := compute_final_score f w })) ct td = some res := h
      rcases tie_break_selected_mem _ ct td res c h2 hsel with ⟨f, hf, hfcand⟩
      rcases List.mem_map.mp hf with ⟨f1, hf1, hfe⟩
      have hcand1 : f.candidate = f1.candidate := by
        simpa using (congrArg Feat.candidate hfe).symm
      have hcfc : ∀ c1 : Product,
          (compute_features_for_candidate sig q c1).candidate = c1 := fun c1 => rfl
      by_cases hue : sig.use_embeddings = true
      · rw [if_pos hue] at hf1
        rcases List.mem_map.mp hf1 with ⟨c0, hc0, hce⟩
        have h3 : f1.candidate = c0 := by rw [← hce, hcfc]
        have hcc : c = c0 := by rw [← hfcand, hcand1, h3]
        rw [hcc]
        exact hc0
      · rw [if_neg hue] at hf1
        rcases applyTfidf_mem _ _ f1 hf1 with ⟨g, hg2, hgc⟩
        rcases List.mem_map.mp hg2 with ⟨c0, hc0, hce⟩
        have h3 : g.candidate = c0 := by rw [← hce, hcfc]
        have hcc : c = c0 := by rw [← hfcand, hcand1, hgc, h3]
        rw [hcc]
        exact hc0

/-- Witness for C10: the priority selector on a one-product list returns that
product, which the membership theorem places in the input list. -/
theorem C10_witness :
    select_by_priority_conditions [prodMilk1000] (some strMilk) none none =
      some prodMilk1000 ∧ prodMilk1000 ∈ [prodMilk1000] :=
  ⟨rfl, C10_selection_membership.1 [prodMilk1000] (some strMilk) none none
    prodMilk1000 rfl⟩
